import Mathlib

/-!
Verification of the cart-service core of the `ecommerce` repository.

The Go sources are embedded shallowly:

* `services/cart-service/internal/core/cart/cart.go` — the cart domain
  model (`Cart`, `CartItem`, `AddItem`, `RemoveItem`, `UpdateItemQuantity`,
  `Clear`, `IncrementVersion`, `ExtendExpiration`, `ValidateQuantity`,
  `MergeCarts`).
* the cart service layer (`Service.GetCart`, `GetOrCreateCart`, `AddItem`,
  `UpdateItemQuantity`, `RemoveItem`, `ClearCart`, `DeleteCart`,
  `MergeGuestCart`, `TouchCart`) running against the in-memory repository
  (`internal/persistence/inmemory/repository.go`), which realises the
  `Repository` interface with Go-map semantics.
* the DynamoDB adapter (`SaveCartWithVersion`, `cartToRecord`,
  `recordToCart`) with the table row for one key modelled explicitly and a
  transport-failure oracle for the follow-up read.
* the retry combinator (`internal/resilience/retry.go`).
* the idempotency middleware
  (`internal/api/middleware/idempotency.go`) together with its in-memory
  store.

Modelling conventions: wall-clock instants are natural numbers (seconds);
every call that reads `time.Now()` takes the instant as an explicit `now`
parameter.  Freshly drawn UUIDs are explicit string parameters.  Go's
`int`/`int64` become `Int` (no operation here approaches the word size).
An RFC-3339 string stored in DynamoDB is represented by the outcome of
parsing it: `some t` for a well-formed stamp denoting `t`, `none` for a
malformed one.  Event publication is best-effort and ignored by every
caller in the source, so it is elided.
-/

namespace Ecommerce

/-! ## Error model — internal/errors (codes.go, errors.go)

`AppError` carries a code, a message and structured details.  The details
that matter to the claims (the versions carried by `ErrConflict`, the
quantities carried by the limit errors) are kept as constructor arguments;
`wrap` mirrors `errors.Wrap`, whose resulting `AppError` answers
`IsCode` with the *wrapping* code. -/

inductive CartError where
  | cartNotFound (userID : String)
  | itemNotFound (userID itemID : String)
  | cartLimitExceeded (currentCount maxAllowed : Int)
  | quantityLimitExceeded (requested maxAllowed : Int)
  | invalidQuantity (quantity : Int)
  | cartExpired (userID : String)
  | conflict (expectedVersion currentVersion : Int)
  | wrap (code : String) (message : String) (cause : CartError)
  deriving Repr, DecidableEq

/-- `AppError.Code` as observed through `errors.IsCode` (the wrapper's code
wins, matching `errors.As` finding the outermost `AppError`). -/
def CartError.code : CartError → String
  | .cartNotFound _ => "CART_NOT_FOUND"
  | .itemNotFound _ _ => "ITEM_NOT_FOUND"
  | .cartLimitExceeded _ _ => "CART_LIMIT_EXCEEDED"
  | .quantityLimitExceeded _ _ => "QUANTITY_LIMIT_EXCEEDED"
  | .invalidQuantity _ => "INVALID_QUANTITY"
  | .cartExpired _ => "CART_EXPIRED"
  | .conflict _ _ => "CONFLICT"
  | .wrap c _ _ => c

/-! ## Domain model — internal/core/cart/cart.go -/

structure CartItem where
  itemID : String
  productID : String
  quantity : Int
  unitPrice : Int
  addedAt : Nat
  deriving Repr, DecidableEq

instance : Inhabited CartItem := ⟨⟨"", "", 0, 0, 0⟩⟩

structure Cart where
  id : String
  userID : String
  items : List CartItem
  version : Int
  createdAt : Nat
  updatedAt : Nat
  expiresAt : Nat
  deriving Repr, DecidableEq

/-- Business-rule constants from cart.go. -/
def maxItemsPerCart : Int := 100

def maxQuantityPerItem : Int := 99

def minQuantityPerItem : Int := 1

/-- `CartExpirationDays * 24 * time.Hour` in seconds. -/
def cartExpirationSeconds : Nat := 7 * 24 * 60 * 60

/-- `NewCart` — fresh UUID, empty items, version 1, expiry 7 days out. -/
def newCart (userID id : String) (now : Nat) : Cart :=
  { id := id
    userID := userID
    items := []
    version := 1
    createdAt := now
    updatedAt := now
    expiresAt := now + cartExpirationSeconds }

/-- `NewCartItem` — fresh UUID, no validation. -/
def newCartItem (productID : String) (quantity unitPrice : Int)
    (itemID : String) (now : Nat) : CartItem :=
  { itemID := itemID
    productID := productID
    quantity := quantity
    unitPrice := unitPrice
    addedAt := now }

/-- `Cart.IsExpired`: `time.Now().After(c.ExpiresAt)` — strictly after. -/
def Cart.isExpired (c : Cart) (now : Nat) : Bool :=
  now > c.expiresAt

/-- `Cart.FindItemByProductID` — first item with the product id, plus its
index. -/
def findItemByProductID : List CartItem → String → Option (Nat × CartItem)
  | [], _ => none
  | it :: rest, pid =>
    if it.productID = pid then some (0, it)
    else (findItemByProductID rest pid).map (fun p => (p.1 + 1, p.2))

/-- `Cart.FindItem` — first item with the item id, plus its index. -/
def findItemByItemID : List CartItem → String → Option (Nat × CartItem)
  | [], _ => none
  | it :: rest, iid =>
    if it.itemID = iid then some (0, it)
    else (findItemByItemID rest iid).map (fun p => (p.1 + 1, p.2))

/-- `ValidateQuantity` — `none` means valid. -/
def validateQuantity (quantity : Int) : Option CartError :=
  if quantity < minQuantityPerItem then
    some (.invalidQuantity quantity)
  else if quantity > maxQuantityPerItem then
    some (.quantityLimitExceeded quantity maxQuantityPerItem)
  else
    none

/-- `Cart.AddItem` — validate, merge by product id (price overwritten,
quantities summed and capped), else append subject to the 100-item cap. -/
def Cart.addItem (c : Cart) (item : CartItem) (now : Nat) :
    Except CartError Cart :=
  match validateQuantity item.quantity with
  | some e => .error e
  | none =>
    match findItemByProductID c.items item.productID with
    | some (idx, existing) =>
      let newQuantity := existing.quantity + item.quantity
      if newQuantity > maxQuantityPerItem then
        .error (.quantityLimitExceeded newQuantity maxQuantityPerItem)
      else
        .ok { c with
                items := c.items.set idx
                  { existing with quantity := newQuantity, unitPrice := item.unitPrice }
                updatedAt := now }
    | none =>
      if (c.items.length : Int) ≥ maxItemsPerCart then
        .error (.cartLimitExceeded (c.items.length : Int) maxItemsPerCart)
      else
        .ok { c with items := c.items ++ [item], updatedAt := now }

/-- `Cart.RemoveItem` — swap the removed slot with the last item, then
truncate. -/
def Cart.removeItem (c : Cart) (itemID : String) (now : Nat) :
    Except CartError Cart :=
  match findItemByItemID c.items itemID with
  | none => .error (.itemNotFound c.userID itemID)
  | some (idx, _) =>
    .ok { c with
            items := (c.items.set idx (c.items.getLast?.getD default)).dropLast
            updatedAt := now }

/-- `Cart.UpdateItemQuantity` — validate, locate by item id, set quantity. -/
def Cart.updateItemQuantity (c : Cart) (itemID : String) (quantity : Int)
    (now : Nat) : Except CartError Cart :=
  match validateQuantity quantity with
  | some e => .error e
  | none =>
    match findItemByItemID c.items itemID with
    | none => .error (.itemNotFound c.userID itemID)
    | some (idx, it) =>
      .ok { c with
              items := c.items.set idx { it with quantity := quantity }
              updatedAt := now }

/-- `Cart.Clear`. -/
def Cart.clear (c : Cart) (now : Nat) : Cart :=
  { c with items := [], updatedAt := now }

/-- `Cart.IncrementVersion`. -/
def Cart.incrementVersion (c : Cart) (now : Nat) : Cart :=
  { c with version := c.version + 1, updatedAt := now }

/-- `Cart.ExtendExpiration`. -/
def Cart.extendExpiration (c : Cart) (now : Nat) : Cart :=
  { c with expiresAt := now + cartExpirationSeconds, updatedAt := now }

/-- The loop body of `MergeCarts`: one guest item folded into the user
item list.  A product match keeps the higher quantity; otherwise the guest
item is appended while the list is below the 100-item cap. -/
def mergeStep (acc : List CartItem) (g : CartItem) : List CartItem :=
  match findItemByProductID acc g.productID with
  | some (idx, existing) =>
    if g.quantity > existing.quantity then
      acc.set idx { existing with quantity := g.quantity }
    else
      acc
  | none =>
    if (acc.length : Int) < maxItemsPerCart then acc ++ [g] else acc

/-- The item-list part of `MergeCarts` for two non-nil carts. -/
def mergeItems (userItems guestItems : List CartItem) : List CartItem :=
  guestItems.foldl mergeStep userItems

/-- `MergeCarts` — nil handling and the guest-item fold, with `updated_at`
touched exactly where the source touches it. -/
def mergeCarts (userCart guestCart : Option Cart) (now : Nat) : Option Cart :=
  match userCart with
  | none =>
    match guestCart with
    | none => none
    | some g => some { g with updatedAt := now }
  | some u =>
    match guestCart with
    | none => some u
    | some g => some { u with items := mergeItems u.items g.items, updatedAt := now }

/-! ## In-memory repository — internal/persistence/inmemory/repository.go

A Go map from user id to cart, as an association list with overwrite-put.
`SaveCart` always succeeds; `SaveCartWithVersion` succeeds iff the key is
absent or the stored version equals the expected one. -/

def Store := List (String × Cart)

instance : DecidableEq Store := inferInstanceAs (DecidableEq (List (String × Cart)))

instance : Repr Store := inferInstanceAs (Repr (List (String × Cart)))

instance : Membership (String × Cart) Store :=
  inferInstanceAs (Membership (String × Cart) (List (String × Cart)))

/-- Did the operation succeed (Go: returned a nil error)? -/
def exceptOk {α : Type} : Except CartError α → Bool
  | .ok _ => true
  | .error _ => false

/-- Map lookup. -/
def Store.get (s : Store) (userID : String) : Option Cart :=
  (List.find? (fun p => p.1 = userID) s).map (fun p => p.2)

/-- Map overwrite. -/
def Store.put (s : Store) (userID : String) (c : Cart) : Store :=
  (userID, c) :: List.filter (fun p => ¬ p.1 = userID) s

/-- Map delete. -/
def Store.del (s : Store) (userID : String) : Store :=
  List.filter (fun p => ¬ p.1 = userID) s

/-- In-memory `SaveCartWithVersion`: conflict iff a row exists whose
version differs from the expected one. -/
def Store.saveWithVersion (s : Store) (c : Cart) (expectedVersion : Int) :
    Except CartError Store :=
  match s.get c.userID with
  | some existing =>
    if existing.version ≠ expectedVersion then
      .error (.conflict expectedVersion existing.version)
    else
      .ok (s.put c.userID c)
  | none => .ok (s.put c.userID c)

/-! ## Cart service — the `Service` methods, running on the in-memory
repository.

Each operation returns its Go result together with the repository state
after the call and the list of carts passed to *successful* saves, in
order; this `saves` trace is what the persisted-snapshot claims quantify
over. -/

/-- Result of one service operation returning a value of type `α`. -/
structure SvcResult (α : Type) where
  result : Except CartError α
  store : Store
  saves : List Cart
  deriving Repr

/-- `Service.GetCart`: not-found passes through, then the expiry check.
(The in-memory repository fails only with `CART_NOT_FOUND`, so the
persistence-wrap branch is dead here.) -/
def svcGetCart (s : Store) (userID : String) (now : Nat) :
    Except CartError Cart :=
  match s.get userID with
  | none => .error (.cartNotFound userID)
  | some c => if c.isExpired now then .error (.cartExpired userID) else .ok c

/-- `Service.GetOrCreateCart`: on not-found or expiry, build a fresh cart
and `SaveCart` it unconditionally.  `newID` is the UUID drawn for the
fresh cart.  The in-memory `SaveCart` cannot fail, so the result is the
cart plus the created flag. -/
def svcGetOrCreateCart (s : Store) (userID newID : String) (now : Nat) :
    (Cart × Bool) × Store × List Cart :=
  match s.get userID with
  | none =>
    let c := newCart userID newID now
    ((c, true), s.put userID c, [c])
  | some c =>
    if c.isExpired now then
      let c' := newCart userID newID now
      ((c', true), s.put userID c', [c'])
    else
      ((c, false), s, [])

/-- `Service.AddItem`: get-or-create, build the item, domain `AddItem`,
`IncrementVersion`, unconditional `SaveCart`. -/
def svcAddItem (s : Store) (userID : String) (productID : String)
    (quantity unitPrice : Int) (cartID itemID : String) (now : Nat) :
    SvcResult Cart :=
  let goc := svcGetOrCreateCart s userID cartID now
  let c := goc.1.1
  let item := newCartItem productID quantity unitPrice itemID now
  match c.addItem item now with
  | .error e => ⟨.error e, goc.2.1, goc.2.2⟩
  | .ok c1 =>
    let c2 := c1.incrementVersion now
    ⟨.ok c2, goc.2.1.put c2.userID c2, goc.2.2 ++ [c2]⟩

/-- `Service.UpdateItemQuantity` on the in-memory repository: get, check
the caller-supplied expected version, domain update, snapshot the
pre-increment version, `IncrementVersion`, conditional save.  A `CONFLICT`
from the save is surfaced unchanged; any other save error would be
wrapped as `PERSISTENCE_ERROR`. -/
def svcUpdateItemQuantity (s : Store) (userID itemID : String)
    (quantity expectedVersion : Int) (now : Nat) : SvcResult Cart :=
  match svcGetCart s userID now with
  | .error e => ⟨.error e, s, []⟩
  | .ok cart =>
    if expectedVersion > 0 ∧ cart.version ≠ expectedVersion then
      ⟨.error (.conflict expectedVersion cart.version), s, []⟩
    else
      match cart.updateItemQuantity itemID quantity now with
      | .error e => ⟨.error e, s, []⟩
      | .ok c1 =>
        let expected := c1.version
        let c2 := c1.incrementVersion now
        match s.saveWithVersion c2 expected with
        | .error e =>
          if e.code = "CONFLICT" then ⟨.error e, s, []⟩
          else ⟨.error (.wrap "PERSISTENCE_ERROR" "failed to save cart" e), s, []⟩
        | .ok s' => ⟨.ok c2, s', [c2]⟩

/-- `Service.RemoveItem`: get, domain remove, `IncrementVersion`,
unconditional save. -/
def svcRemoveItem (s : Store) (userID itemID : String) (now : Nat) :
    SvcResult Cart :=
  match svcGetCart s userID now with
  | .error e => ⟨.error e, s, []⟩
  | .ok cart =>
    match cart.removeItem itemID now with
    | .error e => ⟨.error e, s, []⟩
    | .ok c1 =>
      let c2 := c1.incrementVersion now
      ⟨.ok c2, s.put c2.userID c2, [c2]⟩

/-- `Service.ClearCart`: silent no-op on not-found; otherwise `Clear`,
`IncrementVersion`, unconditional save. -/
def svcClearCart (s : Store) (userID : String) (now : Nat) : SvcResult Unit :=
  match s.get userID with
  | none => ⟨.ok (), s, []⟩
  | some cart =>
    if cart.isExpired now then ⟨.error (.cartExpired userID), s, []⟩
    else
      let c2 := (cart.clear now).incrementVersion now
      ⟨.ok (), s.put c2.userID c2, [c2]⟩

/-- `Service.DeleteCart`: the repository's not-found is swallowed. -/
def svcDeleteCart (s : Store) (userID : String) : SvcResult Unit :=
  ⟨.ok (), s.del userID, []⟩

/-- `Service.MergeGuestCart`: get-or-create the user cart, read the guest
cart straight from the repository (no expiry check), `MergeCarts`,
`IncrementVersion`, unconditional save, best-effort guest delete. -/
def svcMergeGuestCart (s : Store) (userID guestID cartID : String)
    (now : Nat) : SvcResult Cart :=
  let goc := svcGetOrCreateCart s userID cartID now
  let userCart := goc.1.1
  let s1 := goc.2.1
  match s1.get guestID with
  | none => ⟨.ok userCart, s1, goc.2.2⟩
  | some guestCart =>
    let merged := (mergeCarts (some userCart) (some guestCart) now).getD userCart
    let m2 := merged.incrementVersion now
    ⟨.ok m2, (s1.put m2.userID m2).del guestID, goc.2.2 ++ [m2]⟩

/-- `Service.TouchCart`: get, `ExtendExpiration`, unconditional save —
note: no `IncrementVersion`. -/
def svcTouchCart (s : Store) (userID : String) (now : Nat) : SvcResult Unit :=
  match svcGetCart s userID now with
  | .error e => ⟨.error e, s, []⟩
  | .ok cart =>
    let c' := cart.extendExpiration now
    ⟨.ok (), s.put c'.userID c', [c']⟩

/-! ## Operation traces

A trace is a list of timestamped service calls against one `user_id`;
executing it yields the final store, the concatenated list of persisted
snapshots and whether every call succeeded. -/

inductive Op where
  | getOrCreate (newID : String)
  | addItem (productID : String) (quantity unitPrice : Int) (cartID itemID : String)
  | updateItem (itemID : String) (quantity expectedVersion : Int)
  | removeItem (itemID : String)
  | clearCart
  | deleteCart
  | mergeGuest (guestID cartID : String)
  | touchCart
  deriving Repr, DecidableEq

/-- Run one operation; the `Bool` records whether it succeeded. -/
def execOp (s : Store) (userID : String) (now : Nat) : Op → Bool × Store × List Cart
  | .getOrCreate newID =>
    let r := svcGetOrCreateCart s userID newID now
    (true, r.2.1, r.2.2)
  | .addItem pid q price cid iid =>
    let r := svcAddItem s userID pid q price cid iid now
    (exceptOk r.result, r.store, r.saves)
  | .updateItem iid q ev =>
    let r := svcUpdateItemQuantity s userID iid q ev now
    (exceptOk r.result, r.store, r.saves)
  | .removeItem iid =>
    let r := svcRemoveItem s userID iid now
    (exceptOk r.result, r.store, r.saves)
  | .clearCart =>
    let r := svcClearCart s userID now
    (exceptOk r.result, r.store, r.saves)
  | .deleteCart =>
    let r := svcDeleteCart s userID
    (exceptOk r.result, r.store, r.saves)
  | .mergeGuest gid cid =>
    let r := svcMergeGuestCart s userID gid cid now
    (exceptOk r.result, r.store, r.saves)
  | .touchCart =>
    let r := svcTouchCart s userID now
    (exceptOk r.result, r.store, r.saves)

/-- Run a timestamped trace, concatenating the persisted snapshots. -/
def execTrace (userID : String) : Store → List (Nat × Op) → Store × List Cart × Bool
  | s, [] => (s, [], true)
  | s, (now, op) :: rest =>
    let step := execOp s userID now op
    let tail := execTrace userID step.2.1 rest
    (tail.1, step.2.2 ++ tail.2.1, step.1 && tail.2.2)

/-! ## `Service.UpdateItemQuantity` against the abstract `Repository` port

The service is written against the `Repository` interface, so for the
error-handling claim the conditional save's outcome is an oracle
(`saveErr`; `none` = success): a concurrent writer may make any adapter
return `CONFLICT` or a transport error.  `saveCalls` records every
invocation of `SaveCartWithVersion` with its arguments. -/

structure UpdateOutcome where
  result : Except CartError Cart
  saveCalls : List (Cart × Int)
  deriving Repr

/-- `Service.UpdateItemQuantity` with the repository row and the
conditional-save outcome as parameters. -/
def svcUpdateItemQuantityPort (stored : Option Cart) (userID itemID : String)
    (quantity expectedVersion : Int) (now : Nat)
    (saveErr : Option CartError) : UpdateOutcome :=
  match stored with
  | none => ⟨.error (.cartNotFound userID), []⟩
  | some cart =>
    if cart.isExpired now then ⟨.error (.cartExpired userID), []⟩
    else if expectedVersion > 0 ∧ cart.version ≠ expectedVersion then
      ⟨.error (.conflict expectedVersion cart.version), []⟩
    else
      match cart.updateItemQuantity itemID quantity now with
      | .error e => ⟨.error e, []⟩
      | .ok c1 =>
        let expected := c1.version
        let c2 := c1.incrementVersion now
        match saveErr with
        | none => ⟨.ok c2, [(c2, expected)]⟩
        | some e =>
          if e.code = "CONFLICT" then ⟨.error e, [(c2, expected)]⟩
          else ⟨.error (.wrap "PERSISTENCE_ERROR" "failed to save cart" e), [(c2, expected)]⟩

/-! ## DynamoDB adapter — part `internal/persistence/dynamodb/repository.go`

The row stored under `(PK, SK)` for one user, with each RFC-3339 string
attribute represented by its parse outcome (`some t` when the string
parses to instant `t`, `none` when malformed). -/

structure CartItemRecord where
  itemID : String
  productID : String
  quantity : Int
  unitPrice : Int
  addedAt : Option Nat
  deriving Repr, DecidableEq

structure CartRecord where
  pk : String
  sk : String
  recType : String
  id : String
  userID : String
  items : List CartItemRecord
  version : Int
  createdAt : Option Nat
  updatedAt : Option Nat
  expiresAt : Option Nat
  ttl : Nat
  deriving Repr, DecidableEq

/-- `cartToRecord` — formatting a valid instant always yields a string
that parses back to it, hence `some`. -/
def cartToRecord (c : Cart) : CartRecord :=
  { pk := "USER#" ++ c.userID
    sk := "CART#" ++ c.userID
    recType := "CART"
    id := c.id
    userID := c.userID
    items := c.items.map (fun it =>
      { itemID := it.itemID
        productID := it.productID
        quantity := it.quantity
        unitPrice := it.unitPrice
        addedAt := some it.addedAt })
    version := c.version
    createdAt := some c.createdAt
    updatedAt := some c.updatedAt
    expiresAt := some c.expiresAt
    ttl := c.expiresAt }

/-- `recordToCart` — a malformed `added_at`/`created_at`/`updated_at`
falls back to `time.Now()`, a malformed `expires_at` to
`time.Now() + 7 days`; the Go function's error result is always nil, kept
here as `Except String Cart` to mirror the signature. -/
def recordToCart (r : CartRecord) (now : Nat) : Except String Cart :=
  .ok
    { id := r.id
      userID := r.userID
      items := r.items.map (fun it =>
        { itemID := it.itemID
          productID := it.productID
          quantity := it.quantity
          unitPrice := it.unitPrice
          addedAt := it.addedAt.getD now })
      version := r.version
      createdAt := r.createdAt.getD now
      updatedAt := r.updatedAt.getD now
      expiresAt := r.expiresAt.getD (now + cartExpirationSeconds) }

/-- DynamoDB `SaveCartWithVersion` on the row for the cart's user.  The
conditional put succeeds iff no row exists or the stored row's `version`
equals `:expected_version`.  On a conditional-check failure the adapter
issues a follow-up `GetCart`; `followUpFails` is the transport oracle for
that read (`true` = the read fails), in which case the sentinel current
version 0 is reported. -/
def dynamoSaveCartWithVersion (row : Option CartRecord) (c : Cart)
    (expectedVersion : Int) (followUpFails : Bool) :
    Except CartError (Option CartRecord) :=
  match row with
  | none => .ok (some (cartToRecord c))
  | some r =>
    if r.version = expectedVersion then
      .ok (some (cartToRecord c))
    else
      if followUpFails then
        .error (.conflict expectedVersion 0)
      else
        match recordToCart r 0 with
        | .ok currentCart => .error (.conflict expectedVersion currentCart.version)
        | .error _ => .error (.conflict expectedVersion 0)

/-! ## Retry combinator — internal/resilience/retry.go

Backoff delays and jitter only shape waiting time, which the embedding
abstracts; what remains observable is which attempts run and the final
result.  `attempts i` is the error (if any) of the `i`-th invocation of
the wrapped function, `cancelled i` whether `ctx.Err()` is non-nil by the
time the loop checks it before attempt `i` (cancellation during a
backoff wait surfaces at the next loop head, with the same observable
result and invocation count). -/

inductive RetryResult where
  | success
  | ctxCancelled
  | failed (e : CartError)
  deriving Repr, DecidableEq

/-- The `for attempt := 0; attempt < cfg.MaxAttempts` loop of `Retry`.
Returns the result and the number of invocations of the wrapped
function. -/
def retryLoop (retryable : CartError → Bool) (cancelled : Nat → Bool)
    (attempts : Nat → Option CartError) :
    Nat → Nat → Option CartError → RetryResult × Nat
  | _, 0, lastErr =>
    (match lastErr with
     | none => .success
     | some e => .failed e, 0)
  | i, remaining + 1, _ =>
    if cancelled i then (.ctxCancelled, 0)
    else
      match attempts i with
      | none => (.success, 1)
      | some e =>
        if retryable e = false then (.failed e, 1)
        else if remaining = 0 then (.failed e, 1)
        else
          let p := retryLoop retryable cancelled attempts (i + 1) remaining (some e)
          (p.1, p.2 + 1)

/-- `DefaultRetryConfig`'s retryability predicate: retry any non-nil
error. -/
def defaultRetryable : CartError → Bool := fun _ => true

/-- `DefaultRetryConfig().MaxAttempts`. -/
def defaultMaxAttempts : Nat := 3

/-- `Retry` under a given config (attempt counter starts at 0,
`lastErr = nil`). -/
def retryRun (retryable : CartError → Bool) (maxAttempts : Nat)
    (cancelled : Nat → Bool) (attempts : Nat → Option CartError) :
    RetryResult × Nat :=
  retryLoop retryable cancelled attempts 0 maxAttempts none

/-- `Retry` under `DefaultRetryConfig()`. -/
def retryDefault (cancelled : Nat → Bool)
    (attempts : Nat → Option CartError) : RetryResult × Nat :=
  retryRun defaultRetryable defaultMaxAttempts cancelled attempts

/-! ## Idempotency middleware — internal/api/middleware/idempotency.go

HTTP headers are ordered key/value lists (`Add` appends, `Set` replaces);
bodies are opaque byte strings.  The downstream handler is modelled by
the response it would produce; whether the middleware actually invokes it
is recorded in the outcome. -/

structure IdemRecord where
  statusCode : Nat
  body : String
  headers : List (String × String)
  createdAt : Nat
  deriving Repr, DecidableEq

structure StoredIdemRecord where
  record : IdemRecord
  expiresAt : Nat
  deriving Repr, DecidableEq

def IdemStore := List (String × StoredIdemRecord)

instance : DecidableEq IdemStore :=
  inferInstanceAs (DecidableEq (List (String × StoredIdemRecord)))

instance : Repr IdemStore :=
  inferInstanceAs (Repr (List (String × StoredIdemRecord)))

/-- Raw map lookup of the in-memory store. -/
def IdemStore.lookup (s : IdemStore) (key : String) : Option StoredIdemRecord :=
  (List.find? (fun p => p.1 = key) s).map (fun p => p.2)

/-- `InMemoryIdempotencyStore.Get`: absent or expired keys miss
(`time.Now().After(expiresAt)` — strictly after). -/
def IdemStore.getRecord (s : IdemStore) (key : String) (now : Nat) :
    Option IdemRecord :=
  match s.lookup key with
  | none => none
  | some stored => if now > stored.expiresAt then none else some stored.record

/-- `InMemoryIdempotencyStore.Set`: overwrite with expiry `now + ttl`. -/
def IdemStore.setRecord (s : IdemStore) (key : String) (r : IdemRecord)
    (ttl now : Nat) : IdemStore :=
  (key, ⟨r, now + ttl⟩) :: List.filter (fun p => ¬ p.1 = key) s

/-- `w.Header().Set` — replace every value under the key. -/
def headerSet (h : List (String × String)) (key value : String) :
    List (String × String) :=
  List.filter (fun p => ¬ p.1 = key) h ++ [(key, value)]

structure HttpRequestM where
  method : String
  idempotencyKey : String
  userIDHeader : String
  deriving Repr, DecidableEq

structure HttpResponseM where
  statusCode : Nat
  headers : List (String × String)
  body : String
  deriving Repr, DecidableEq

structure MiddlewareOutcome where
  response : HttpResponseM
  store : IdemStore
  downstreamInvoked : Bool
  deriving Repr

/-- The scoped cache key `"{user_id or 'anonymous'}:{header_value}"`. -/
def scopedKey (req : HttpRequestM) : String :=
  (if req.userIDHeader = "" then "anonymous" else req.userIDHeader)
    ++ ":" ++ req.idempotencyKey

/-- The `Idempotency` middleware handler.  `downstream` is the response
the wrapped handler produces when invoked (status as committed by its
writes, headers, body).  Go's absent header is the empty string. -/
def idempotencyMiddleware (enabled : Bool) (ttl : Nat) (store : IdemStore)
    (req : HttpRequestM) (now : Nat) (downstream : HttpResponseM) :
    MiddlewareOutcome :=
  if req.method ≠ "POST" ∧ req.method ≠ "PATCH" then
    ⟨downstream, store, true⟩
  else if enabled = false then
    ⟨downstream, store, true⟩
  else if req.idempotencyKey = "" then
    ⟨downstream, store, true⟩
  else
    match store.getRecord (scopedKey req) now with
    | some rec =>
      ⟨{ statusCode := rec.statusCode
         headers := headerSet rec.headers "X-Idempotent-Replayed" "true"
         body := rec.body },
       store, false⟩
    | none =>
      if 200 ≤ downstream.statusCode ∧ downstream.statusCode < 300 then
        ⟨downstream,
         store.setRecord (scopedKey req)
           { statusCode := downstream.statusCode
             body := downstream.body
             headers := downstream.headers
             createdAt := now } ttl now,
         true⟩
      else
        ⟨downstream, store, true⟩

/-! ## Helper lemmas -/

theorem validateQuantity_of_lt {q : Int} (h : q < 1) :
    validateQuantity q = some (.invalidQuantity q) := by
  unfold validateQuantity minQuantityPerItem
  rw [if_pos h]

theorem validateQuantity_of_gt {q : Int} (h : q > 99) :
    validateQuantity q = some (.quantityLimitExceeded q 99) := by
  unfold validateQuantity minQuantityPerItem maxQuantityPerItem
  rw [if_neg (by omega), if_pos h]

theorem validateQuantity_of_ok {q : Int} (h1 : 1 ≤ q) (h2 : q ≤ 99) :
    validateQuantity q = none := by
  unfold validateQuantity minQuantityPerItem maxQuantityPerItem
  rw [if_neg (by omega), if_neg (by omega)]

/-! ## C1 — domain `AddItem` -/

/-- C1: `AddItem` rejects quantities below 1 with `INVALID_QUANTITY` and
above 99 with `QUANTITY_LIMIT_EXCEEDED`; a valid quantity merges into an
existing line for the same product (sum capped at 99, failing with
`QUANTITY_LIMIT_EXCEEDED`, and the unit price overwritten by the new
price) and otherwise appends, failing with `CART_LIMIT_EXCEEDED` once the
cart holds 100 or more items.  Failures return only an error, so the cart
value is unchanged. -/
theorem C1_addItem_spec (c : Cart) (item : CartItem) (now : Nat) :
    (item.quantity < 1 →
      c.addItem item now = .error (.invalidQuantity item.quantity)) ∧
    (item.quantity > 99 →
      c.addItem item now = .error (.quantityLimitExceeded item.quantity 99)) ∧
    (1 ≤ item.quantity → item.quantity ≤ 99 →
      (∀ idx existing,
        findItemByProductID c.items item.productID = some (idx, existing) →
        (existing.quantity + item.quantity > 99 →
          c.addItem item now =
            .error (.quantityLimitExceeded (existing.quantity + item.quantity) 99)) ∧
        (existing.quantity + item.quantity ≤ 99 →
          c.addItem item now =
            .ok { c with
                    items := c.items.set idx
                      { existing with
                          quantity := existing.quantity + item.quantity
                          unitPrice := item.unitPrice }
                    updatedAt := now })) ∧
      (findItemByProductID c.items item.productID = none →
        ((c.items.length : Int) ≥ 100 →
          c.addItem item now =
            .error (.cartLimitExceeded (c.items.length : Int) 100)) ∧
        ((c.items.length : Int) < 100 →
          c.addItem item now =
            .ok { c with items := c.items ++ [item], updatedAt := now }))) := by
  refine ⟨?_, ?_, ?_⟩
  · intro h
    unfold Cart.addItem
    rw [validateQuantity_of_lt h]
  · intro h
    unfold Cart.addItem
    rw [validateQuantity_of_gt h]
  · intro h1 h2
    constructor
    · intro idx existing hfind
      constructor
      · intro hover
        unfold Cart.addItem
        rw [validateQuantity_of_ok h1 h2, hfind]
        simp only [maxQuantityPerItem]
        rw [if_pos hover]
      · intro hle
        unfold Cart.addItem
        rw [validateQuantity_of_ok h1 h2, hfind]
        simp only [maxQuantityPerItem]
        rw [if_neg (by omega)]
    · intro hfind
      constructor
      · intro hge
        unfold Cart.addItem
        rw [validateQuantity_of_ok h1 h2, hfind]
        simp only [maxItemsPerCart]
        rw [if_pos hge]
      · intro hlt
        unfold Cart.addItem
        rw [validateQuantity_of_ok h1 h2, hfind]
        simp only [maxItemsPerCart]
        rw [if_neg (by omega)]

/-- Witness for C1 at a concrete cart: one existing line for `"p1"` with
quantity 2; adding 3 of `"p1"` at price 600 merges to quantity 5 and
price 600. -/
theorem C1_addItem_spec_witness :
    (⟨"cart1", "u1", [⟨"i1", "p1", 2, 500, 0⟩], 1, 0, 0, 100⟩ : Cart).addItem
        ⟨"i2", "p1", 3, 600, 5⟩ 5 =
      .ok ⟨"cart1", "u1", [⟨"i1", "p1", 5, 600, 0⟩], 1, 0, 5, 100⟩ := by
  have h := (C1_addItem_spec ⟨"cart1", "u1", [⟨"i1", "p1", 2, 500, 0⟩], 1, 0, 0, 100⟩
    ⟨"i2", "p1", 3, 600, 5⟩ 5).2.2 (by decide) (by decide)
  have h2 := (h.1 0 ⟨"i1", "p1", 2, 500, 0⟩ (by decide)).2 (by decide)
  exact h2

/-- The domain `UpdateItemQuantity` never changes the version. -/
theorem updateItemQuantity_ok_version {c c1 : Cart} {iid : String} {q : Int}
    {now : Nat} (h : c.updateItemQuantity iid q now = .ok c1) :
    c1.version = c.version := by
  unfold Cart.updateItemQuantity at h
  cases hv : validateQuantity q with
  | some e => rw [hv] at h; simp at h
  | none =>
    rw [hv] at h
    cases hf : findItemByItemID c.items iid with
    | none => rw [hf] at h; simp at h
    | some p =>
      obtain ⟨idx, it⟩ := p
      rw [hf] at h
      simp only [Except.ok.injEq] at h
      subst h
      rfl

/-! ## C4 — service `UpdateItemQuantity` -/

/-- C4: on an existing unexpired cart, a caller-supplied positive
expected version differing from the current one fails `CONFLICT` carrying
both versions without any save; otherwise, once the domain update
succeeds, exactly one conditional save runs, its cart argument carries the
old version plus one while its expected-version argument is the
pre-increment version, a `CONFLICT` from the adapter is surfaced
unchanged, and any other save error is wrapped as `PERSISTENCE_ERROR`. -/
theorem C4_updateItemQuantity_port_spec (cart : Cart) (userID itemID : String)
    (quantity expectedVersion : Int) (now : Nat) (saveErr : Option CartError)
    (hexp : cart.isExpired now = false) :
    (expectedVersion > 0 → cart.version ≠ expectedVersion →
      svcUpdateItemQuantityPort (some cart) userID itemID quantity
          expectedVersion now saveErr =
        ⟨.error (.conflict expectedVersion cart.version), []⟩) ∧
    (¬ (expectedVersion > 0 ∧ cart.version ≠ expectedVersion) →
      ∀ c1, cart.updateItemQuantity itemID quantity now = .ok c1 →
        (svcUpdateItemQuantityPort (some cart) userID itemID quantity
            expectedVersion now saveErr).saveCalls =
          [(c1.incrementVersion now, cart.version)] ∧
        (c1.incrementVersion now).version = cart.version + 1 ∧
        (saveErr = none →
          (svcUpdateItemQuantityPort (some cart) userID itemID quantity
              expectedVersion now saveErr).result = .ok (c1.incrementVersion now)) ∧
        (∀ e, saveErr = some e → e.code = "CONFLICT" →
          (svcUpdateItemQuantityPort (some cart) userID itemID quantity
              expectedVersion now saveErr).result = .error e) ∧
        (∀ e, saveErr = some e → e.code ≠ "CONFLICT" →
          (svcUpdateItemQuantityPort (some cart) userID itemID quantity
              expectedVersion now saveErr).result =
            .error (.wrap "PERSISTENCE_ERROR" "failed to save cart" e))) := by
  constructor
  · intro h1 h2
    simp only [svcUpdateItemQuantityPort]
    rw [hexp]
    simp only [Bool.false_eq_true, if_false]
    rw [if_pos ⟨h1, h2⟩]
  · intro hn c1 hu
    have hver : c1.version = cart.version := updateItemQuantity_ok_version hu
    simp only [svcUpdateItemQuantityPort]
    rw [hexp]
    simp only [Bool.false_eq_true, if_false]
    rw [if_neg hn, hu]
    refine ⟨?_, ?_, ?_, ?_, ?_⟩
    · cases saveErr with
      | none => simp [hver]
      | some e =>
        by_cases hc : e.code = "CONFLICT" <;> simp [hc, hver]
    · simp [Cart.incrementVersion, hver]
    · intro hse
      subst hse
      rfl
    · intro e hse hc
      subst hse
      simp [hc]
    · intro e hse hc
      subst hse
      simp [hc]

/-- Witness for C4: a one-item cart at version 3, matching expected
version 3, quantity set to 7, save succeeding. -/
theorem C4_updateItemQuantity_port_spec_witness :
    (svcUpdateItemQuantityPort
        (some ⟨"cart1", "u1", [⟨"i1", "p1", 2, 500, 0⟩], 3, 0, 0, 100⟩)
        "u1" "i1" 7 3 5 none).result =
      .ok ((⟨"cart1", "u1", [⟨"i1", "p1", 7, 500, 0⟩], 3, 0, 5, 100⟩ : Cart).incrementVersion 5) := by
  have h := (C4_updateItemQuantity_port_spec
      ⟨"cart1", "u1", [⟨"i1", "p1", 2, 500, 0⟩], 3, 0, 0, 100⟩
      "u1" "i1" 7 3 5 none (by decide)).2 (by decide)
      ⟨"cart1", "u1", [⟨"i1", "p1", 7, 500, 0⟩], 3, 0, 5, 100⟩ (by rfl)
  exact h.2.2.1 rfl

/-! ## C5 — DynamoDB `SaveCartWithVersion` -/

/-- C5: the conditional save succeeds iff no row exists or the stored
row's version equals the expected one; on a conditional-check failure the
adapter reports `CONFLICT` with the currently stored version obtained by
the follow-up read, or with the sentinel 0 when that read fails. -/
theorem C5_dynamoSaveCartWithVersion_spec (row : Option CartRecord) (c : Cart)
    (expectedVersion : Int) (followUpFails : Bool) :
    ((∃ row', dynamoSaveCartWithVersion row c expectedVersion followUpFails =
        .ok row') ↔
      (row = none ∨ ∃ r, row = some r ∧ r.version = expectedVersion)) ∧
    (∀ r, row = some r → r.version ≠ expectedVersion →
      (followUpFails = false →
        dynamoSaveCartWithVersion row c expectedVersion followUpFails =
          .error (.conflict expectedVersion r.version)) ∧
      (followUpFails = true →
        dynamoSaveCartWithVersion row c expectedVersion followUpFails =
          .error (.conflict expectedVersion 0))) := by
  constructor
  · cases row with
    | none => simp [dynamoSaveCartWithVersion]
    | some r =>
      by_cases hv : r.version = expectedVersion
      · simp [dynamoSaveCartWithVersion, hv]
      · cases followUpFails <;>
          simp [dynamoSaveCartWithVersion, hv, recordToCart]
  · intro r hr hv
    subst hr
    constructor
    · intro hf
      subst hf
      simp [dynamoSaveCartWithVersion, hv, recordToCart]
    · intro hf
      subst hf
      simp [dynamoSaveCartWithVersion, hv]

/-- Witness for C5: a stored row at version 2 against expected version 1
with a working follow-up read yields `CONFLICT` carrying 2. -/
theorem C5_dynamoSaveCartWithVersion_spec_witness :
    dynamoSaveCartWithVersion
        (some ⟨"USER#u1", "CART#u1", "CART", "cid", "u1", [], 2, none, none, none, 0⟩)
        ⟨"cid", "u1", [], 3, 0, 0, 100⟩ 1 false =
      .error (.conflict 1 2) := by
  have h := ((C5_dynamoSaveCartWithVersion_spec
      (some ⟨"USER#u1", "CART#u1", "CART", "cid", "u1", [], 2, none, none, none, 0⟩)
      ⟨"cid", "u1", [], 3, 0, 0, 100⟩ 1 false).2
      ⟨"USER#u1", "CART#u1", "CART", "cid", "u1", [], 2, none, none, none, 0⟩
      rfl (by decide)).1 rfl
  exact h

/-! ## C10 — `recordToCart` timestamp fallbacks -/

/-- C10: decoding a stored record never fails: malformed `created_at`,
`updated_at` and item `added_at` stamps fall back to the current time, a
malformed `expires_at` to the current time plus 7 days — so a cart whose
stored `expires_at` is unparseable is not expired at the instant that
decodes it. -/
theorem C10_recordToCart_total (r : CartRecord) (now : Nat) :
    ∃ c, recordToCart r now = .ok c ∧
      c.createdAt = r.createdAt.getD now ∧
      c.updatedAt = r.updatedAt.getD now ∧
      c.expiresAt = r.expiresAt.getD (now + cartExpirationSeconds) ∧
      c.items.map (fun it => it.addedAt) =
        r.items.map (fun it => it.addedAt.getD now) ∧
      (r.expiresAt = none →
        c.expiresAt = now + cartExpirationSeconds ∧ c.isExpired now = false) := by
  refine ⟨_, rfl, rfl, rfl, rfl, ?_, ?_⟩
  · simp [recordToCart]
  · intro h
    refine ⟨by simp [recordToCart, h], ?_⟩
    simp only [recordToCart, Cart.isExpired, h, Option.getD_none]
    simp

/-- Witness for C10: a record whose four stamps are all malformed decodes
at instant 10 to a live cart expiring at `10 + 7 days`. -/
theorem C10_recordToCart_total_witness :
    ∃ c, recordToCart
        ⟨"USER#u1", "CART#u1", "CART", "cid", "u1",
          [⟨"i1", "p1", 2, 500, none⟩], 4, none, none, none, 0⟩ 10 = .ok c ∧
      c.expiresAt = 10 + cartExpirationSeconds ∧ c.isExpired 10 = false := by
  obtain ⟨c, h1, _, _, _, _, h6⟩ := C10_recordToCart_total
    ⟨"USER#u1", "CART#u1", "CART", "cid", "u1",
      [⟨"i1", "p1", 2, 500, none⟩], 4, none, none, none, 0⟩ 10
  exact ⟨c, h1, (h6 rfl).1, (h6 rfl).2⟩

/-! ## C7 — retry combinator -/

/-- The loop never invokes the wrapped function more often than the
remaining attempt budget. -/
theorem retryLoop_count_le (retryable : CartError → Bool)
    (cancelled : Nat → Bool) (attempts : Nat → Option CartError) :
    ∀ remaining i lastErr,
      (retryLoop retryable cancelled attempts i remaining lastErr).2 ≤ remaining := by
  intro remaining
  induction remaining with
  | zero => intro i lastErr; simp [retryLoop]
  | succ r ih =>
    intro i lastErr
    unfold retryLoop
    split
    · simp
    split
    · simp
    split
    · simp
    split
    · simp
    · dsimp only
      exact Nat.succ_le_succ (ih (i + 1) _)

/-- C7 counterexample: under `DefaultRetryConfig` (retry any non-nil
error, 3 attempts) a function that keeps failing with `CONFLICT` is
invoked three times — it *is* re-invoked after returning `CONFLICT`,
contrary to the claim. -/
theorem C7_conflict_retried_counterexample :
    (fun _ => some (CartError.conflict 1 2) : Nat → Option CartError) 0 =
        some (.conflict 1 2) ∧
    retryDefault (fun _ => false) (fun _ => some (.conflict 1 2)) =
      (.failed (.conflict 1 2), 3) ∧
    ¬ (retryDefault (fun _ => false) (fun _ => some (.conflict 1 2))).2 ≤ 1 := by
  refine ⟨rfl, rfl, by decide⟩

/-- C7 (amended): retries stop immediately on a non-retryable error or on
context cancellation and at most `MaxAttempts` invocations occur; but the
default predicate retries every non-nil error, `CONFLICT` included, so
under the default configuration a `CONFLICT`-failing call is re-invoked
until the attempt budget is exhausted. -/
theorem C7_retry_amended_spec (retryable : CartError → Bool)
    (cancelled : Nat → Bool) (attempts : Nat → Option CartError)
    (maxAttempts : Nat) :
    (retryRun retryable maxAttempts cancelled attempts).2 ≤ maxAttempts ∧
    (maxAttempts ≥ 1 → cancelled 0 = true →
      retryRun retryable maxAttempts cancelled attempts = (.ctxCancelled, 0)) ∧
    (∀ e, maxAttempts ≥ 1 → cancelled 0 = false → attempts 0 = some e →
      retryable e = false →
      retryRun retryable maxAttempts cancelled attempts = (.failed e, 1)) ∧
    (∀ e, e.code = "CONFLICT" → defaultRetryable e = true) ∧
    (∀ e, cancelled 0 = false → cancelled 1 = false → cancelled 2 = false →
      attempts 0 = some e → attempts 1 = some e → attempts 2 = some e →
      retryDefault cancelled attempts = (.failed e, 3)) := by
  refine ⟨retryLoop_count_le _ _ _ _ _ _, ?_, ?_, ?_, ?_⟩
  · intro hmax hc
    obtain ⟨m, rfl⟩ : ∃ m, maxAttempts = m + 1 :=
      ⟨maxAttempts - 1, by omega⟩
    unfold retryRun retryLoop
    simp [hc]
  · intro e hmax hc ha hr
    obtain ⟨m, rfl⟩ : ∃ m, maxAttempts = m + 1 :=
      ⟨maxAttempts - 1, by omega⟩
    unfold retryRun retryLoop
    simp [hc, ha, hr]
  · intro e _
    rfl
  · intro e hc0 hc1 hc2 ha0 ha1 ha2
    unfold retryDefault retryRun defaultMaxAttempts retryLoop
    simp [hc0, ha0, defaultRetryable]
    unfold retryLoop
    simp [hc1, ha1, defaultRetryable]
    unfold retryLoop
    simp [hc2, ha2, defaultRetryable]

/-- Witness for C7 (amended) at the constant-`CONFLICT` function with no
cancellation and the default 3-attempt budget. -/
theorem C7_retry_amended_spec_witness :
    retryDefault (fun _ => false) (fun _ => some (.conflict 1 2)) =
      (.failed (.conflict 1 2), 3) := by
  exact (C7_retry_amended_spec defaultRetryable (fun _ => false)
    (fun _ => some (.conflict 1 2)) defaultMaxAttempts).2.2.2.2
    (.conflict 1 2) rfl rfl rfl rfl rfl rfl

/-! ## C8 — idempotency middleware -/

/-- C8: for an enabled middleware on a POST or PATCH request carrying an
`Idempotency-Key`, an unexpired record cached under the scoped key
`"{user_id or 'anonymous'}:{key}"` is replayed verbatim (status, headers,
body) with `X-Idempotent-Replayed: true` added and the downstream handler
not invoked; on a miss the downstream response is returned, the handler
runs, and its response is cached exactly when its status is 2xx; a
request without the header always bypasses the cache. -/
theorem C8_idempotency_spec (ttl : Nat) (store : IdemStore)
    (req : HttpRequestM) (now : Nat) (downstream : HttpResponseM)
    (hm : req.method = "POST" ∨ req.method = "PATCH") :
    (∀ stored, req.idempotencyKey ≠ "" →
      store.lookup (scopedKey req) = some stored →
      ¬ now > stored.expiresAt →
      idempotencyMiddleware true ttl store req now downstream =
        ⟨{ statusCode := stored.record.statusCode
           headers := headerSet stored.record.headers "X-Idempotent-Replayed" "true"
           body := stored.record.body },
         store, false⟩) ∧
    (req.idempotencyKey ≠ "" →
      store.getRecord (scopedKey req) now = none →
      (idempotencyMiddleware true ttl store req now downstream).response =
          downstream ∧
      (idempotencyMiddleware true ttl store req now downstream).downstreamInvoked =
          true ∧
      (200 ≤ downstream.statusCode ∧ downstream.statusCode < 300 →
        (idempotencyMiddleware true ttl store req now downstream).store =
          store.setRecord (scopedKey req)
            { statusCode := downstream.statusCode
              body := downstream.body
              headers := downstream.headers
              createdAt := now } ttl now) ∧
      (¬ (200 ≤ downstream.statusCode ∧ downstream.statusCode < 300) →
        (idempotencyMiddleware true ttl store req now downstream).store =
          store)) ∧
    (req.idempotencyKey = "" →
      idempotencyMiddleware true ttl store req now downstream =
        ⟨downstream, store, true⟩) := by
  have hmethod : ¬ (req.method ≠ "POST" ∧ req.method ≠ "PATCH") := by
    rcases hm with h | h <;> simp [h]
  refine ⟨?_, ?_, ?_⟩
  · intro stored hkey hlookup hexp
    have hget : store.getRecord (scopedKey req) now = some stored.record := by
      unfold IdemStore.getRecord
      rw [hlookup]
      simp only []
      rw [if_neg hexp]
    unfold idempotencyMiddleware
    rw [if_neg hmethod, if_neg (by simp), if_neg hkey, hget]
  · intro hkey hget
    unfold idempotencyMiddleware
    rw [if_neg hmethod, if_neg (by simp), if_neg hkey, hget]
    by_cases h2xx : 200 ≤ downstream.statusCode ∧ downstream.statusCode < 300
    · rw [if_pos h2xx]
      exact ⟨rfl, rfl, fun _ => rfl, fun hn => absurd h2xx hn⟩
    · rw [if_neg h2xx]
      exact ⟨rfl, rfl, fun h => absurd h h2xx, fun _ => rfl⟩
  · intro hkey
    unfold idempotencyMiddleware
    rw [if_neg hmethod, if_neg (by simp), if_pos hkey]

/-- Witness for C8: a cached record (status 201, one header, body `ok`)
under key `"u1:k1"`, unexpired at instant 5, is replayed without invoking
the handler. -/
theorem C8_idempotency_spec_witness :
    idempotencyMiddleware true 100
        [("u1:k1", ⟨⟨201, "ok", [("Content-Type", "application/json")], 0⟩, 9⟩)]
        ⟨"POST", "k1", "u1"⟩ 5 ⟨500, [], "boom"⟩ =
      ⟨{ statusCode := 201
         headers := headerSet [("Content-Type", "application/json")]
           "X-Idempotent-Replayed" "true"
         body := "ok" },
       [("u1:k1", ⟨⟨201, "ok", [("Content-Type", "application/json")], 0⟩, 9⟩)],
       false⟩ := by
  exact (C8_idempotency_spec 100
      [("u1:k1", ⟨⟨201, "ok", [("Content-Type", "application/json")], 0⟩, 9⟩)]
      ⟨"POST", "k1", "u1"⟩ 5 ⟨500, [], "boom"⟩ (Or.inl rfl)).1
    ⟨⟨201, "ok", [("Content-Type", "application/json")], 0⟩, 9⟩
    (by decide) (by decide) (by decide)

/-! ## Shape lemmas for the domain mutations -/

/-- A successful `AddItem` changes only `items` and `updatedAt`. -/
theorem addItem_ok_eq {c c1 : Cart} {item : CartItem} {now : Nat}
    (h : c.addItem item now = .ok c1) :
    ∃ its, c1 = { c with items := its, updatedAt := now } := by
  unfold Cart.addItem at h
  cases hv : validateQuantity item.quantity with
  | some e => rw [hv] at h; simp at h
  | none =>
    rw [hv] at h
    cases hf : findItemByProductID c.items item.productID with
    | some p =>
      obtain ⟨idx, existing⟩ := p
      rw [hf] at h
      dsimp only [] at h
      by_cases hq : existing.quantity + item.quantity > maxQuantityPerItem
      · rw [if_pos hq] at h; simp at h
      · rw [if_neg hq] at h
        simp only [Except.ok.injEq] at h
        exact ⟨_, h.symm⟩
    | none =>
      rw [hf] at h
      by_cases hl : (c.items.length : Int) ≥ maxItemsPerCart
      · rw [if_pos hl] at h; simp at h
      · rw [if_neg hl] at h
        simp only [Except.ok.injEq] at h
        exact ⟨_, h.symm⟩

/-- A successful `RemoveItem` changes only `items` and `updatedAt`. -/
theorem removeItem_ok_eq {c c1 : Cart} {itemID : String} {now : Nat}
    (h : c.removeItem itemID now = .ok c1) :
    ∃ its, c1 = { c with items := its, updatedAt := now } := by
  unfold Cart.removeItem at h
  cases hf : findItemByItemID c.items itemID with
  | none => rw [hf] at h; simp at h
  | some p =>
    obtain ⟨idx, it⟩ := p
    rw [hf] at h
    simp only [Except.ok.injEq] at h
    exact ⟨_, h.symm⟩

/-- A successful `UpdateItemQuantity` changes only `items` and
`updatedAt`. -/
theorem updateItemQuantity_ok_eq {c c1 : Cart} {itemID : String}
    {q : Int} {now : Nat} (h : c.updateItemQuantity itemID q now = .ok c1) :
    ∃ its, c1 = { c with items := its, updatedAt := now } := by
  unfold Cart.updateItemQuantity at h
  cases hv : validateQuantity q with
  | some e => rw [hv] at h; simp at h
  | none =>
    rw [hv] at h
    cases hf : findItemByItemID c.items itemID with
    | none => rw [hf] at h; simp at h
    | some p =>
      obtain ⟨idx, it⟩ := p
      rw [hf] at h
      simp only [Except.ok.injEq] at h
      exact ⟨_, h.symm⟩

/-! ## `GetOrCreateCart` case lemmas -/

theorem svcGetOrCreateCart_absent {s : Store} {userID : String}
    (newID : String) (now : Nat) (hget : s.get userID = none) :
    svcGetOrCreateCart s userID newID now =
      ((newCart userID newID now, true),
       s.put userID (newCart userID newID now), [newCart userID newID now]) := by
  unfold svcGetOrCreateCart
  rw [hget]

theorem svcGetOrCreateCart_live {s : Store} {userID : String} {c : Cart}
    (newID : String) (now : Nat) (hget : s.get userID = some c)
    (hexp : c.isExpired now = false) :
    svcGetOrCreateCart s userID newID now = ((c, false), s, []) := by
  unfold svcGetOrCreateCart
  rw [hget]
  simp [hexp]

theorem svcGetOrCreateCart_expired {s : Store} {userID : String} {c : Cart}
    (newID : String) (now : Nat) (hget : s.get userID = some c)
    (hexp : c.isExpired now = true) :
    svcGetOrCreateCart s userID newID now =
      ((newCart userID newID now, true),
       s.put userID (newCart userID newID now), [newCart userID newID now]) := by
  unfold svcGetOrCreateCart
  rw [hget]
  simp [hexp]

/-! ## C2 — version discipline of persisted snapshots -/

/-- The claimed property of the persisted-version sequence: each snapshot
version is its predecessor plus one. -/
def versionsStepByOne : List Int → Bool
  | a :: b :: rest => (b == a + 1) && versionsStepByOne (b :: rest)
  | _ => true

/-- C2 counterexample: the two-call trace `GetOrCreateCart; TouchCart` on
a fresh user succeeds and persists snapshot versions `[1, 1]` — the
second persisted snapshot does not increment the first, and the pair
`(user_id, 1)` is written twice. -/
theorem C2_version_increment_counterexample :
    (execTrace "u1" [] [(0, .getOrCreate "c1"), (1, .touchCart)]).2.2 = true ∧
    (execTrace "u1" [] [(0, .getOrCreate "c1"), (1, .touchCart)]).2.1.map
        (fun c => c.version) = [1, 1] ∧
    versionsStepByOne [1, 1] = false ∧
    ¬ ([1, 1] : List Int).Nodup := by
  exact ⟨rfl, rfl, rfl, by decide⟩

/-- C2 (amended): on an existing unexpired cart, `AddItem`,
`UpdateItemQuantity`, `RemoveItem`, `ClearCart` and a guest-merging
`MergeGuestCart` each persist exactly one snapshot at the loaded version
plus one; but `TouchCart` persists the *same* version again, and
`GetOrCreateCart` on an absent or expired user persists a fresh cart at
version 1 regardless of history. -/
theorem C2_version_amended_spec (s : Store) (userID : String) (c : Cart)
    (now : Nat) (hget : s.get userID = some c)
    (hexp : c.isExpired now = false) :
    (∀ pid q price cid iid c1,
      c.addItem (newCartItem pid q price iid now) now = .ok c1 →
      (svcAddItem s userID pid q price cid iid now).saves.map
          (fun x => x.version) = [c.version + 1]) ∧
    (∀ iid q ev c1, ¬ (ev > 0 ∧ c.version ≠ ev) → c.userID = userID →
      c.updateItemQuantity iid q now = .ok c1 →
      (svcUpdateItemQuantity s userID iid q ev now).saves.map
          (fun x => x.version) = [c.version + 1]) ∧
    (∀ iid c1, c.removeItem iid now = .ok c1 →
      (svcRemoveItem s userID iid now).saves.map
          (fun x => x.version) = [c.version + 1]) ∧
    ((svcClearCart s userID now).saves.map
        (fun x => x.version) = [c.version + 1]) ∧
    (∀ gid cid g, (s.get gid = some g) →
      (svcMergeGuestCart s userID gid cid now).saves.map
          (fun x => x.version) = [c.version + 1]) ∧
    ((svcTouchCart s userID now).saves.map
        (fun x => x.version) = [c.version]) ∧
    (∀ s0 uid newID, Store.get s0 uid = none →
      (svcGetOrCreateCart s0 uid newID now).2.2.map
          (fun x => x.version) = [1]) ∧
    (∀ s0 uid c0 newID, Store.get s0 uid = some c0 →
      c0.isExpired now = true →
      (svcGetOrCreateCart s0 uid newID now).2.2.map
          (fun x => x.version) = [1]) := by
  have hsvcGet : svcGetCart s userID now = .ok c := by
    unfold svcGetCart
    rw [hget]
    simp [hexp]
  refine ⟨?_, ?_, ?_, ?_, ?_, ?_, ?_, ?_⟩
  · intro pid q price cid iid c1 hadd
    unfold svcAddItem
    rw [svcGetOrCreateCart_live cid now hget hexp]
    simp only [hadd]
    obtain ⟨its, rfl⟩ := addItem_ok_eq hadd
    simp [Cart.incrementVersion]
  · intro iid q ev c1 hev huid hupd
    unfold svcUpdateItemQuantity
    rw [hsvcGet]
    simp only []
    rw [if_neg hev]
    obtain ⟨its, rfl⟩ := updateItemQuantity_ok_eq hupd
    simp only [hupd]
    have hsave : s.saveWithVersion
        (({ c with items := its, updatedAt := now } : Cart).incrementVersion now)
        ({ c with items := its, updatedAt := now } : Cart).version =
        .ok (s.put userID (({ c with items := its, updatedAt := now } : Cart).incrementVersion now)) := by
      unfold Store.saveWithVersion
      simp only [Cart.incrementVersion]
      rw [show ({ c with items := its, updatedAt := now } : Cart).userID = userID from huid]
      rw [hget]
      simp [huid]
    rw [hsave]
    simp [Cart.incrementVersion]
  · intro iid c1 hrem
    unfold svcRemoveItem
    rw [hsvcGet]
    simp only [hrem]
    obtain ⟨its, rfl⟩ := removeItem_ok_eq hrem
    simp [Cart.incrementVersion]
  · unfold svcClearCart
    rw [hget]
    simp [hexp, Cart.clear, Cart.incrementVersion]
  · intro gid cid g hg
    unfold svcMergeGuestCart
    rw [svcGetOrCreateCart_live cid now hget hexp]
    simp only [hg]
    simp [mergeCarts, Cart.incrementVersion]
  · unfold svcTouchCart
    rw [hsvcGet]
    simp [Cart.extendExpiration]
  · intro s0 uid newID h0
    rw [svcGetOrCreateCart_absent newID now h0]
    simp [newCart]
  · intro s0 uid c0 newID h0 hexp0
    rw [svcGetOrCreateCart_expired newID now h0 hexp0]
    simp [newCart]

/-- Witness for C2 (amended): a concrete one-item cart at version 4;
clearing persists version 5 while touching persists version 4 again. -/
theorem C2_version_amended_spec_witness :
    (svcClearCart [("u1", ⟨"cid", "u1", [⟨"i1", "p1", 2, 500, 0⟩], 4, 0, 0, 100⟩)]
        "u1" 7).saves.map (fun x => x.version) = [4 + 1] ∧
    (svcTouchCart [("u1", ⟨"cid", "u1", [⟨"i1", "p1", 2, 500, 0⟩], 4, 0, 0, 100⟩)]
        "u1" 7).saves.map (fun x => x.version) = [4] := by
  have h := C2_version_amended_spec
    [("u1", ⟨"cid", "u1", [⟨"i1", "p1", 2, 500, 0⟩], 4, 0, 0, 100⟩)]
    "u1" ⟨"cid", "u1", [⟨"i1", "p1", 2, 500, 0⟩], 4, 0, 0, 100⟩ 7
    (by decide) (by decide)
  exact ⟨h.2.2.2.1, h.2.2.2.2.2.1⟩

/-! ## C3 — invariants of persisted carts -/

/-- Every item quantity is within the business bounds. -/
def itemsQuantityOK (items : List CartItem) : Prop :=
  ∀ it ∈ items, 1 ≤ it.quantity ∧ it.quantity ≤ 99

/-- The invariant every persisted cart actually satisfies: item
quantities in `[1, 99]` and at most 100 items (the item count may be
zero). -/
def cartInv (c : Cart) : Prop :=
  itemsQuantityOK c.items ∧ c.items.length ≤ 100

/-- Every entry of the repository satisfies `cartInv`. -/
def storeInv (s : Store) : Prop :=
  ∀ p ∈ s, cartInv p.2

theorem storeInv_get {s : Store} {uid : String} {c : Cart}
    (hs : storeInv s) (h : s.get uid = some c) : cartInv c := by
  unfold Store.get at h
  cases hf : List.find? (fun p => p.1 = uid) s with
  | none => rw [hf] at h; simp at h
  | some p =>
    rw [hf] at h
    simp only [Option.map_some', Option.some.injEq] at h
    subst h
    exact hs p (List.mem_of_find?_eq_some hf)

theorem storeInv_put {s : Store} {uid : String} {c : Cart}
    (hs : storeInv s) (hc : cartInv c) : storeInv (s.put uid c) := by
  intro p hp
  unfold Store.put at hp
  rcases List.mem_cons.mp hp with h | h
  · subst h; exact hc
  · exact hs p (List.mem_filter.mp h).1

theorem storeInv_del {s : Store} {uid : String} (hs : storeInv s) :
    storeInv (s.del uid) := by
  intro p hp
  exact hs p (List.mem_filter.mp hp).1

theorem validateQuantity_none_bounds {q : Int}
    (h : validateQuantity q = none) : 1 ≤ q ∧ q ≤ 99 := by
  unfold validateQuantity minQuantityPerItem maxQuantityPerItem at h
  by_cases h1 : q < 1
  · rw [if_pos h1] at h; simp at h
  · rw [if_neg h1] at h
    by_cases h2 : q > 99
    · rw [if_pos h2] at h; simp at h
    · omega

theorem findItemByProductID_mem :
    ∀ {l : List CartItem} {pid : String} {idx : Nat} {it : CartItem},
      findItemByProductID l pid = some (idx, it) → it ∈ l := by
  intro l
  induction l with
  | nil => intro pid idx it h; simp [findItemByProductID] at h
  | cons a rest ih =>
    intro pid idx it h
    unfold findItemByProductID at h
    by_cases ha : a.productID = pid
    · rw [if_pos ha] at h
      simp only [Option.some.injEq, Prod.mk.injEq] at h
      rw [← h.2]
      exact List.mem_cons_self a rest
    · rw [if_neg ha] at h
      cases hf : findItemByProductID rest pid with
      | none => rw [hf] at h; simp at h
      | some p =>
        rw [hf] at h
        simp only [Option.map_some', Option.some.injEq, Prod.mk.injEq] at h
        rw [← h.2]
        exact List.mem_cons_of_mem a (ih hf)

theorem findItemByItemID_mem :
    ∀ {l : List CartItem} {iid : String} {idx : Nat} {it : CartItem},
      findItemByItemID l iid = some (idx, it) → it ∈ l := by
  intro l
  induction l with
  | nil => intro iid idx it h; simp [findItemByItemID] at h
  | cons a rest ih =>
    intro iid idx it h
    unfold findItemByItemID at h
    by_cases ha : a.itemID = iid
    · rw [if_pos ha] at h
      simp only [Option.some.injEq, Prod.mk.injEq] at h
      rw [← h.2]
      exact List.mem_cons_self a rest
    · rw [if_neg ha] at h
      cases hf : findItemByItemID rest iid with
      | none => rw [hf] at h; simp at h
      | some p =>
        rw [hf] at h
        simp only [Option.map_some', Option.some.injEq, Prod.mk.injEq] at h
        rw [← h.2]
        exact List.mem_cons_of_mem a (ih hf)

/-- A successful `AddItem` preserves the cart invariant. -/
theorem addItem_inv {c c1 : Cart} {item : CartItem} {now : Nat}
    (hc : cartInv c) (h : c.addItem item now = .ok c1) : cartInv c1 := by
  unfold Cart.addItem at h
  cases hv : validateQuantity item.quantity with
  | some e => rw [hv] at h; simp at h
  | none =>
    obtain ⟨hq1, hq2⟩ := validateQuantity_none_bounds hv
    rw [hv] at h
    cases hf : findItemByProductID c.items item.productID with
    | some p =>
      obtain ⟨idx, existing⟩ := p
      have hex := hc.1 existing (findItemByProductID_mem hf)
      rw [hf] at h
      dsimp only [] at h
      by_cases hq : existing.quantity + item.quantity > maxQuantityPerItem
      · rw [if_pos hq] at h; simp at h
      · rw [if_neg hq] at h
        simp only [Except.ok.injEq] at h
        subst h
        unfold maxQuantityPerItem at hq
        refine ⟨?_, ?_⟩
        · intro it hit
          rcases List.mem_or_eq_of_mem_set hit with hm | he
          · exact hc.1 it hm
          · subst he
            refine ⟨?_, ?_⟩ <;> simp only [] <;> omega
        · simpa using hc.2
    | none =>
      rw [hf] at h
      by_cases hl : (c.items.length : Int) ≥ maxItemsPerCart
      · rw [if_pos hl] at h; simp at h
      · rw [if_neg hl] at h
        simp only [Except.ok.injEq] at h
        subst h
        unfold maxItemsPerCart at hl
        refine ⟨?_, ?_⟩
        · intro it hit
          rcases List.mem_append.mp hit with hm | hm
          · exact hc.1 it hm
          · rw [List.mem_singleton.mp hm]
            exact ⟨hq1, hq2⟩
        · simp only [List.length_append, List.length_cons, List.length_nil]
          omega

/-- A successful `UpdateItemQuantity` preserves the cart invariant. -/
theorem updateItemQuantity_inv {c c1 : Cart} {itemID : String} {q : Int}
    {now : Nat} (hc : cartInv c)
    (h : c.updateItemQuantity itemID q now = .ok c1) : cartInv c1 := by
  unfold Cart.updateItemQuantity at h
  cases hv : validateQuantity q with
  | some e => rw [hv] at h; simp at h
  | none =>
    obtain ⟨hq1, hq2⟩ := validateQuantity_none_bounds hv
    rw [hv] at h
    cases hf : findItemByItemID c.items itemID with
    | none => rw [hf] at h; simp at h
    | some p =>
      obtain ⟨idx, it0⟩ := p
      rw [hf] at h
      simp only [Except.ok.injEq] at h
      subst h
      refine ⟨?_, ?_⟩
      · intro it hit
        rcases List.mem_or_eq_of_mem_set hit with hm | he
        · exact hc.1 it hm
        · subst he
          exact ⟨hq1, hq2⟩
      · simpa using hc.2

/-- A successful `RemoveItem` preserves the cart invariant. -/
theorem removeItem_inv {c c1 : Cart} {itemID : String} {now : Nat}
    (hc : cartInv c) (h : c.removeItem itemID now = .ok c1) : cartInv c1 := by
  unfold Cart.removeItem at h
  cases hf : findItemByItemID c.items itemID with
  | none => rw [hf] at h; simp at h
  | some p =>
    obtain ⟨idx, it0⟩ := p
    have hne : c.items ≠ [] := by
      intro hnil
      rw [hnil] at hf
      simp [findItemByItemID] at hf
    have hlast : c.items.getLast?.getD default ∈ c.items := by
      cases hg : c.items.getLast? with
      | none => exact absurd (List.getLast?_eq_none_iff.mp hg) hne
      | some a =>
        simp only [Option.getD_some]
        exact List.mem_of_getLast?_eq_some hg
    rw [hf] at h
    simp only [Except.ok.injEq] at h
    subst h
    refine ⟨?_, ?_⟩
    · intro it hit
      have hset := (List.dropLast_sublist _).subset hit
      rcases List.mem_or_eq_of_mem_set hset with hm | he
      · exact hc.1 it hm
      · subst he
        exact hc.1 _ hlast
    · simp only [List.length_dropLast, List.length_set]
      have hlen : c.items.length ≤ 100 := hc.2
      omega

/-- One merge step preserves quantity bounds and the 100-item cap. -/
theorem mergeStep_inv {acc : List CartItem} {g : CartItem}
    (ha : itemsQuantityOK acc) (hl : acc.length ≤ 100)
    (hg : 1 ≤ g.quantity ∧ g.quantity ≤ 99) :
    itemsQuantityOK (mergeStep acc g) ∧ (mergeStep acc g).length ≤ 100 := by
  unfold mergeStep
  cases hf : findItemByProductID acc g.productID with
  | some p =>
    obtain ⟨idx, existing⟩ := p
    simp only []
    by_cases hgt : g.quantity > existing.quantity
    · rw [if_pos hgt]
      refine ⟨?_, by simpa using hl⟩
      intro it hit
      rcases List.mem_or_eq_of_mem_set hit with hm | he
      · exact ha it hm
      · subst he
        exact ⟨hg.1, hg.2⟩
    · rw [if_neg hgt]
      exact ⟨ha, hl⟩
  | none =>
    simp only []
    by_cases hlt : (acc.length : Int) < maxItemsPerCart
    · rw [if_pos hlt]
      unfold maxItemsPerCart at hlt
      refine ⟨?_, ?_⟩
      · intro it hit
        rcases List.mem_append.mp hit with hm | hm
        · exact ha it hm
        · rw [List.mem_singleton.mp hm]
          exact hg
      · simp only [List.length_append, List.length_cons, List.length_nil]
        omega
    · rw [if_neg hlt]
      exact ⟨ha, hl⟩

/-- The guest-item fold preserves quantity bounds and the cap. -/
theorem mergeItems_inv :
    ∀ (gi ui : List CartItem), itemsQuantityOK ui → ui.length ≤ 100 →
      (∀ g ∈ gi, 1 ≤ g.quantity ∧ g.quantity ≤ 99) →
      itemsQuantityOK (mergeItems ui gi) ∧ (mergeItems ui gi).length ≤ 100 := by
  intro gi
  induction gi with
  | nil => intro ui h1 h2 _; exact ⟨h1, h2⟩
  | cons g gs ih =>
    intro ui h1 h2 hg
    have hstep := mergeStep_inv h1 h2 (hg g (List.mem_cons_self g gs))
    have := ih (mergeStep ui g) hstep.1 hstep.2
      (fun x hx => hg x (List.mem_cons_of_mem g hx))
    simpa [mergeItems, List.foldl_cons] using this

theorem newCart_inv (userID id : String) (now : Nat) :
    cartInv (newCart userID id now) := by
  refine ⟨?_, ?_⟩
  · intro it hit
    simp [newCart] at hit
  · simp [newCart]

theorem cartInv_incrementVersion (now : Nat) {c : Cart} (hc : cartInv c) :
    cartInv (c.incrementVersion now) := hc

theorem cartInv_extendExpiration (now : Nat) {c : Cart} (hc : cartInv c) :
    cartInv (c.extendExpiration now) := hc

theorem cartInv_clear (c : Cart) (now : Nat) : cartInv (c.clear now) := by
  refine ⟨?_, ?_⟩
  · intro it hit
    simp [Cart.clear] at hit
  · simp [Cart.clear]

/-- A successful `svcGetCart` returns the stored, unexpired cart. -/
theorem svcGetCart_ok {s : Store} {uid : String} {now : Nat} {c : Cart}
    (h : svcGetCart s uid now = .ok c) :
    s.get uid = some c ∧ c.isExpired now = false := by
  unfold svcGetCart at h
  cases hget : s.get uid with
  | none => rw [hget] at h; simp at h
  | some c0 =>
    rw [hget] at h
    dsimp only [] at h
    cases hexp : c0.isExpired now with
    | true => rw [hexp] at h; simp at h
    | false =>
      rw [hexp] at h
      simp only [Bool.false_eq_true, if_false, Except.ok.injEq] at h
      subst h
      exact ⟨rfl, hexp⟩

/-- A successful in-memory conditional save is an overwrite-put. -/
theorem saveWithVersion_ok_store {s s' : Store} {c : Cart} {v : Int}
    (h : s.saveWithVersion c v = .ok s') : s' = s.put c.userID c := by
  unfold Store.saveWithVersion at h
  cases hget : s.get c.userID with
  | none =>
    rw [hget] at h
    simp only [Except.ok.injEq] at h
    exact h.symm
  | some c0 =>
    rw [hget] at h
    dsimp only [] at h
    by_cases hv : c0.version ≠ v
    · rw [if_pos hv] at h; simp at h
    · rw [if_neg hv] at h
      simp only [Except.ok.injEq] at h
      exact h.symm

theorem svcGetOrCreateCart_inv (s : Store) (uid newID : String) (now : Nat)
    (hs : storeInv s) :
    cartInv (svcGetOrCreateCart s uid newID now).1.1 ∧
    storeInv (svcGetOrCreateCart s uid newID now).2.1 ∧
    ∀ c ∈ (svcGetOrCreateCart s uid newID now).2.2, cartInv c := by
  cases hget : s.get uid with
  | none =>
    rw [svcGetOrCreateCart_absent newID now hget]
    refine ⟨newCart_inv uid newID now,
            storeInv_put hs (newCart_inv uid newID now), ?_⟩
    intro c hc
    rw [List.mem_singleton.mp hc]
    exact newCart_inv uid newID now
  | some c0 =>
    cases hexp : c0.isExpired now with
    | true =>
      rw [svcGetOrCreateCart_expired newID now hget hexp]
      refine ⟨newCart_inv uid newID now,
              storeInv_put hs (newCart_inv uid newID now), ?_⟩
      intro c hc
      rw [List.mem_singleton.mp hc]
      exact newCart_inv uid newID now
    | false =>
      rw [svcGetOrCreateCart_live newID now hget hexp]
      refine ⟨storeInv_get hs hget, hs, ?_⟩
      intro c hc
      simp at hc

theorem svcAddItem_inv (s : Store) (uid pid : String) (q price : Int)
    (cid iid : String) (now : Nat) (hs : storeInv s) :
    (∀ c ∈ (svcAddItem s uid pid q price cid iid now).saves, cartInv c) ∧
    storeInv (svcAddItem s uid pid q price cid iid now).store := by
  obtain ⟨hc0, hs1, hsv1⟩ := svcGetOrCreateCart_inv s uid cid now hs
  unfold svcAddItem
  dsimp only
  cases hadd : (svcGetOrCreateCart s uid cid now).1.1.addItem
      (newCartItem pid q price iid now) now with
  | error e => exact ⟨hsv1, hs1⟩
  | ok c1 =>
    have hc1 := addItem_inv hc0 hadd
    constructor
    · intro c hc
      rcases List.mem_append.mp hc with hm | hm
      · exact hsv1 c hm
      · rw [List.mem_singleton.mp hm]
        exact cartInv_incrementVersion now hc1
    · exact storeInv_put hs1 (cartInv_incrementVersion now hc1)

theorem svcUpdateItemQuantity_inv (s : Store) (uid iid : String)
    (q ev : Int) (now : Nat) (hs : storeInv s) :
    (∀ c ∈ (svcUpdateItemQuantity s uid iid q ev now).saves, cartInv c) ∧
    storeInv (svcUpdateItemQuantity s uid iid q ev now).store := by
  unfold svcUpdateItemQuantity
  cases hg : svcGetCart s uid now with
  | error e => exact ⟨by intro c hc; simp at hc, hs⟩
  | ok cart =>
    have hcart := storeInv_get hs (svcGetCart_ok hg).1
    dsimp only
    by_cases hev : ev > 0 ∧ cart.version ≠ ev
    · rw [if_pos hev]
      exact ⟨by intro c hc; simp at hc, hs⟩
    · rw [if_neg hev]
      cases hupd : cart.updateItemQuantity iid q now with
      | error e => exact ⟨by intro c hc; simp at hc, hs⟩
      | ok c1 =>
        have hc1 := updateItemQuantity_inv hcart hupd
        dsimp only
        cases hsv : s.saveWithVersion (c1.incrementVersion now) c1.version with
        | error e =>
          dsimp only []
          by_cases hcode : e.code = "CONFLICT"
          · rw [if_pos hcode]
            exact ⟨by intro c hc; simp at hc, hs⟩
          · rw [if_neg hcode]
            exact ⟨by intro c hc; simp at hc, hs⟩
        | ok s' =>
          dsimp only []
          rw [saveWithVersion_ok_store hsv]
          constructor
          · intro c hc
            rw [List.mem_singleton.mp hc]
            exact cartInv_incrementVersion now hc1
          · exact storeInv_put hs (cartInv_incrementVersion now hc1)

theorem svcRemoveItem_inv (s : Store) (uid iid : String) (now : Nat)
    (hs : storeInv s) :
    (∀ c ∈ (svcRemoveItem s uid iid now).saves, cartInv c) ∧
    storeInv (svcRemoveItem s uid iid now).store := by
  unfold svcRemoveItem
  cases hg : svcGetCart s uid now with
  | error e => exact ⟨by intro c hc; simp at hc, hs⟩
  | ok cart =>
    have hcart := storeInv_get hs (svcGetCart_ok hg).1
    dsimp only
    cases hrem : cart.removeItem iid now with
    | error e => exact ⟨by intro c hc; simp at hc, hs⟩
    | ok c1 =>
      have hc1 := removeItem_inv hcart hrem
      constructor
      · intro c hc
        rw [List.mem_singleton.mp hc]
        exact cartInv_incrementVersion now hc1
      · exact storeInv_put hs (cartInv_incrementVersion now hc1)

theorem svcClearCart_inv (s : Store) (uid : String) (now : Nat)
    (hs : storeInv s) :
    (∀ c ∈ (svcClearCart s uid now).saves, cartInv c) ∧
    storeInv (svcClearCart s uid now).store := by
  unfold svcClearCart
  cases hget : s.get uid with
  | none => exact ⟨by intro c hc; simp at hc, hs⟩
  | some cart =>
    dsimp only
    cases hexp : cart.isExpired now with
    | true =>
      simp only [hexp, if_true]
      exact ⟨by intro c hc; simp at hc, hs⟩
    | false =>
      simp only [hexp, Bool.false_eq_true, if_false]
      have hc2 := cartInv_incrementVersion now (cartInv_clear cart now)
      constructor
      · intro c hc
        rw [List.mem_singleton.mp hc]
        exact hc2
      · exact storeInv_put hs hc2

theorem svcMergeGuestCart_inv (s : Store) (uid gid cid : String) (now : Nat)
    (hs : storeInv s) :
    (∀ c ∈ (svcMergeGuestCart s uid gid cid now).saves, cartInv c) ∧
    storeInv (svcMergeGuestCart s uid gid cid now).store := by
  obtain ⟨hc0, hs1, hsv1⟩ := svcGetOrCreateCart_inv s uid cid now hs
  unfold svcMergeGuestCart
  dsimp only
  cases hg : (svcGetOrCreateCart s uid cid now).2.1.get gid with
  | none => exact ⟨hsv1, hs1⟩
  | some guest =>
    have hguest := storeInv_get hs1 hg
    have hmerged : cartInv
        ((mergeCarts (some (svcGetOrCreateCart s uid cid now).1.1)
          (some guest) now).getD (svcGetOrCreateCart s uid cid now).1.1) := by
      unfold mergeCarts
      dsimp only [Option.getD_some]
      have := mergeItems_inv guest.items
        (svcGetOrCreateCart s uid cid now).1.1.items hc0.1 hc0.2
        (fun g hgm => hguest.1 g hgm)
      exact ⟨this.1, this.2⟩
    have hm2 := cartInv_incrementVersion now hmerged
    constructor
    · intro c hc
      rcases List.mem_append.mp hc with hm | hm
      · exact hsv1 c hm
      · rw [List.mem_singleton.mp hm]
        exact hm2
    · exact storeInv_del (storeInv_put hs1 hm2)

theorem svcTouchCart_inv (s : Store) (uid : String) (now : Nat)
    (hs : storeInv s) :
    (∀ c ∈ (svcTouchCart s uid now).saves, cartInv c) ∧
    storeInv (svcTouchCart s uid now).store := by
  unfold svcTouchCart
  cases hg : svcGetCart s uid now with
  | error e => exact ⟨by intro c hc; simp at hc, hs⟩
  | ok cart =>
    have hcart := storeInv_get hs (svcGetCart_ok hg).1
    have hc' := cartInv_extendExpiration now hcart
    constructor
    · intro c hc
      rw [List.mem_singleton.mp hc]
      exact hc'
    · exact storeInv_put hs hc'

/-- Every save performed by one operation satisfies the invariant, and
the invariant on the repository is preserved. -/
theorem execOp_inv (s : Store) (uid : String) (now : Nat) (op : Op)
    (hs : storeInv s) :
    (∀ c ∈ (execOp s uid now op).2.2, cartInv c) ∧
    storeInv (execOp s uid now op).2.1 := by
  cases op with
  | getOrCreate newID =>
    obtain ⟨h1, h2, h3⟩ := svcGetOrCreateCart_inv s uid newID now hs
    exact ⟨h3, h2⟩
  | addItem pid q price cid iid => exact svcAddItem_inv s uid pid q price cid iid now hs
  | updateItem iid q ev => exact svcUpdateItemQuantity_inv s uid iid q ev now hs
  | removeItem iid => exact svcRemoveItem_inv s uid iid now hs
  | clearCart => exact svcClearCart_inv s uid now hs
  | deleteCart => exact ⟨by intro c hc; simp [execOp, svcDeleteCart] at hc, storeInv_del hs⟩
  | mergeGuest gid cid => exact svcMergeGuestCart_inv s uid gid cid now hs
  | touchCart => exact svcTouchCart_inv s uid now hs

/-- C3 counterexample: the single call `GetOrCreateCart` on a fresh user
succeeds and persists a cart with zero items, refuting the claimed lower
bound `1 ≤ |items|` on persisted carts (the claimed quantity bounds are
vacuous here). -/
theorem C3_persisted_lower_bound_counterexample :
    (execTrace "u1" [] [(0, .getOrCreate "c1")]).2.2 = true ∧
    (execTrace "u1" [] [(0, .getOrCreate "c1")]).2.1.map
        (fun c => c.items.length) = [0] ∧
    ¬ (1 ≤ 0) := by
  exact ⟨rfl, rfl, by decide⟩

/-- C3 (amended): starting from a repository whose rows satisfy the
invariant, every cart passed to a successful save during any trace of
service operations has every item quantity in `[1, 99]` and at most 100
items; the item count may be 0 (`GetOrCreateCart` and `ClearCart` persist
empty carts), so the claimed lower bound `1 ≤ |items|` is dropped. -/
theorem C3_persisted_invariant_amended (userID : String) :
    ∀ (trace : List (Nat × Op)) (s : Store), storeInv s →
      ∀ c ∈ (execTrace userID s trace).2.1, cartInv c := by
  intro trace
  induction trace with
  | nil =>
    intro s hs c hc
    simp [execTrace] at hc
  | cons step rest ih =>
    intro s hs c hc
    obtain ⟨now, op⟩ := step
    unfold execTrace at hc
    dsimp only at hc
    obtain ⟨hsaves, hstore⟩ := execOp_inv s userID now op hs
    rcases List.mem_append.mp hc with hm | hm
    · exact hsaves c hm
    · exact ih (execOp s userID now op).2.1 hstore c hm

/-- Witness for C3 (amended): the cart persisted by `GetOrCreateCart` on
an empty repository satisfies the invariant. -/
theorem C3_persisted_invariant_amended_witness :
    cartInv (newCart "u1" "c1" 0) := by
  exact C3_persisted_invariant_amended "u1" [(0, .getOrCreate "c1")] []
    (by intro p hp; exact absurd hp (List.not_mem_nil p)) (newCart "u1" "c1" 0)
    (by decide)

/-! ## Characterisation of `FindItemByProductID` -/

theorem findItemByProductID_some_char :
    ∀ {l : List CartItem} {pid : String} {idx : Nat} {it : CartItem},
      findItemByProductID l pid = some (idx, it) →
      l[idx]? = some it ∧ it.productID = pid := by
  intro l
  induction l with
  | nil => intro pid idx it h; simp [findItemByProductID] at h
  | cons a rest ih =>
    intro pid idx it h
    unfold findItemByProductID at h
    by_cases ha : a.productID = pid
    · rw [if_pos ha] at h
      simp only [Option.some.injEq, Prod.mk.injEq] at h
      obtain ⟨h1, h2⟩ := h
      subst h2
      rw [← h1]
      exact ⟨List.getElem?_cons_zero, ha⟩
    · rw [if_neg ha] at h
      cases hf : findItemByProductID rest pid with
      | none => rw [hf] at h; simp at h
      | some p =>
        obtain ⟨i0, it0⟩ := p
        rw [hf] at h
        simp only [Option.map_some', Option.some.injEq, Prod.mk.injEq] at h
        obtain ⟨h1, h2⟩ := h
        obtain ⟨hg, hpid⟩ := ih hf
        subst h2
        rw [← h1]
        refine ⟨?_, hpid⟩
        simpa using hg

theorem findItemByProductID_none_char :
    ∀ {l : List CartItem} {pid : String},
      findItemByProductID l pid = none ↔ ∀ x ∈ l, x.productID ≠ pid := by
  intro l
  induction l with
  | nil => intro pid; simp [findItemByProductID]
  | cons a rest ih =>
    intro pid
    unfold findItemByProductID
    by_cases ha : a.productID = pid
    · rw [if_pos ha]
      simp only [List.mem_cons]
      constructor
      · intro h; simp at h
      · intro h
        exact absurd ha (h a (Or.inl rfl))
    · rw [if_neg ha]
      constructor
      · intro h x hx
        rcases List.mem_cons.mp hx with hh | ht
        · subst hh; exact ha
        · cases hf : findItemByProductID rest pid with
          | none => exact (ih.mp hf) x ht
          | some p => rw [hf] at h; simp at h
      · intro h
        have : findItemByProductID rest pid = none :=
          ih.mpr (fun x hx => h x (List.mem_cons_of_mem a hx))
        rw [this]
        rfl

theorem getElem?_some_lt {α : Type} {l : List α} {n : Nat} {a : α}
    (h : l[n]? = some a) : n < l.length := by
  rcases Nat.lt_or_ge n l.length with hl | hl
  · exact hl
  · rw [List.getElem?_eq_none hl] at h
    cases h

/-! ## C9 — the merge loop's effect on pre-existing user items -/

/-- How one pass of guest items may change a user item: every field but
the quantity is untouched, and the quantity either stays or rises to the
quantity of a same-product guest item. -/
def mergeFrame (gl : List CartItem) (a b : CartItem) : Prop :=
  b.itemID = a.itemID ∧ b.productID = a.productID ∧ b.unitPrice = a.unitPrice ∧
  b.addedAt = a.addedAt ∧
  (b.quantity = a.quantity ∨
    (a.quantity < b.quantity ∧
      ∃ x ∈ gl, x.productID = a.productID ∧ x.quantity = b.quantity))

theorem mergeFrame_refl (gl : List CartItem) (a : CartItem) :
    mergeFrame gl a a :=
  ⟨rfl, rfl, rfl, rfl, Or.inl rfl⟩

theorem mergeFrame_trans {g : CartItem} {gs : List CartItem} {a b c : CartItem}
    (h1 : mergeFrame [g] a b) (h2 : mergeFrame gs b c) :
    mergeFrame (g :: gs) a c := by
  obtain ⟨e1, e2, e3, e4, hq1⟩ := h1
  obtain ⟨f1, f2, f3, f4, hq2⟩ := h2
  refine ⟨f1.trans e1, f2.trans e2, f3.trans e3, f4.trans e4, ?_⟩
  rcases hq1 with hq1 | ⟨hlt1, y, hy, hyp, hyq⟩
  · rcases hq2 with hq2 | ⟨hlt2, x, hx, hxp, hxq⟩
    · exact Or.inl (hq2.trans hq1)
    · exact Or.inr ⟨by omega, x, List.mem_cons_of_mem g hx, hxp.trans e2, hxq⟩
  · have hyg : y = g := List.mem_singleton.mp hy
    subst hyg
    rcases hq2 with hq2 | ⟨hlt2, x, hx, hxp, hxq⟩
    · exact Or.inr ⟨by omega, y, List.mem_cons_self y gs, hyp, by omega⟩
    · exact Or.inr ⟨by omega, x, List.mem_cons_of_mem y hx, hxp.trans e2, hxq⟩

/-- One merge step: a pre-existing slot keeps its identity fields and at
most its quantity grows, to the quantity of the processed guest item. -/
theorem mergeStep_frame (acc : List CartItem) (g : CartItem) (i : Nat)
    (a : CartItem) (h : acc[i]? = some a) :
    ∃ b, (mergeStep acc g)[i]? = some b ∧ mergeFrame [g] a b := by
  unfold mergeStep
  cases hf : findItemByProductID acc g.productID with
  | some p =>
    obtain ⟨idx, ex⟩ := p
    obtain ⟨hgex, hpid⟩ := findItemByProductID_some_char hf
    dsimp only
    by_cases hgt : g.quantity > ex.quantity
    · rw [if_pos hgt]
      by_cases hij : idx = i
      · subst hij
        have hae : ex = a := by
          rw [hgex] at h
          exact Option.some.inj h
        subst hae
        refine ⟨{ ex with quantity := g.quantity }, ?_, ?_⟩
        · rw [List.getElem?_set_self (getElem?_some_lt hgex)]
        · exact ⟨rfl, rfl, rfl, rfl,
            Or.inr ⟨hgt, g, List.mem_singleton_self g, hpid.symm, rfl⟩⟩
      · rw [List.getElem?_set_ne hij]
        exact ⟨a, h, mergeFrame_refl _ a⟩
    · rw [if_neg hgt]
      exact ⟨a, h, mergeFrame_refl _ a⟩
  | none =>
    dsimp only
    by_cases hlt : (acc.length : Int) < maxItemsPerCart
    · rw [if_pos hlt]
      refine ⟨a, ?_, mergeFrame_refl _ a⟩
      rw [List.getElem?_append, if_pos (getElem?_some_lt h)]
      exact h
    · rw [if_neg hlt]
      exact ⟨a, h, mergeFrame_refl _ a⟩

/-- The whole guest fold: a pre-existing slot keeps its identity fields;
its quantity stays or rises to that of a same-product guest item. -/
theorem mergeItems_frame :
    ∀ (gl acc : List CartItem) (i : Nat) (a : CartItem), acc[i]? = some a →
      ∃ b, (List.foldl mergeStep acc gl)[i]? = some b ∧ mergeFrame gl a b := by
  intro gl
  induction gl with
  | nil => intro acc i a h; exact ⟨a, h, mergeFrame_refl [] a⟩
  | cons g gs ih =>
    intro acc i a h
    obtain ⟨b1, hb1, hf1⟩ := mergeStep_frame acc g i a h
    obtain ⟨b, hb, hf⟩ := ih (mergeStep acc g) i b1 hb1
    exact ⟨b, by simpa [List.foldl_cons] using hb, mergeFrame_trans hf1 hf⟩

/-- C9: when both carts are non-nil, each pre-existing user item keeps its
`item_id`, `product_id`, `unit_price` and `added_at` through `MergeCarts`;
only the quantity may change, and then only upward to the quantity of a
guest item with the same product id — in particular the user's unit price
survives a guest item with a different price and a higher quantity. -/
theorem C9_mergeCarts_frame (u g : Cart) (now : Nat) (i : Nat)
    (a : CartItem) (h : u.items[i]? = some a) :
    mergeCarts (some u) (some g) now =
      some { u with items := mergeItems u.items g.items, updatedAt := now } ∧
    ∃ b, (mergeItems u.items g.items)[i]? = some b ∧
      b.itemID = a.itemID ∧ b.productID = a.productID ∧
      b.unitPrice = a.unitPrice ∧ b.addedAt = a.addedAt ∧
      (b.quantity = a.quantity ∨
        (a.quantity < b.quantity ∧
          ∃ x ∈ g.items, x.productID = a.productID ∧
            x.quantity = b.quantity)) := by
  refine ⟨rfl, ?_⟩
  obtain ⟨b, hb, hf⟩ := mergeItems_frame g.items u.items i a h
  exact ⟨b, hb, hf.1, hf.2.1, hf.2.2.1, hf.2.2.2.1, hf.2.2.2.2⟩

/-- Witness for C9: user line `p1` (qty 2, price 500) merged against a
guest line `p1` (qty 9, price 900) keeps the user's price 500. -/
theorem C9_mergeCarts_frame_witness :
    ∃ b, (mergeItems [⟨"i1", "p1", 2, 500, 0⟩]
        [⟨"g1", "p1", 9, 900, 3⟩])[0]? = some b ∧ b.unitPrice = 500 := by
  obtain ⟨-, b, hb, -, -, hup, -⟩ := C9_mergeCarts_frame
    ⟨"cu", "u1", [⟨"i1", "p1", 2, 500, 0⟩], 1, 0, 0, 100⟩
    ⟨"cg", "g1", [⟨"g1", "p1", 9, 900, 3⟩], 1, 0, 0, 100⟩ 5 0
    ⟨"i1", "p1", 2, 500, 0⟩ (by decide)
  exact ⟨b, hb, by rw [hup]⟩

/-! ## C6 — functional characterisation of `MergeCarts`

`mergeSpecItems` below is the refinement target, written from the spec's
words: every user item's quantity becomes the max with the quantity of a
matching guest item; guest items with no match are appended in order, but
only while the cart is below the 100-item cap (overflow silently
dropped).  The theorem proves the source's fold equal to it whenever the
two carts have internally distinct product ids — the domain invariant
(§3: `product_id` is unique within a cart). -/

/-- Spec side: the quantity-max rule applied to one user item. -/
def mergeQtySpec (gl : List CartItem) (it : CartItem) : CartItem :=
  match gl.find? (fun x => x.productID == it.productID) with
  | some x => { it with quantity := max it.quantity x.quantity }
  | none => it

/-- Spec side: guest items with no matching user product, in order. -/
def guestLeftover (ui gl : List CartItem) : List CartItem :=
  gl.filter (fun x => !(ui.any (fun it => it.productID == x.productID)))

/-- Spec side of the merged item list. -/
def mergeSpecItems (ui gl : List CartItem) : List CartItem :=
  ui.map (mergeQtySpec gl) ++ (guestLeftover ui gl).take (100 - ui.length)

theorem set_of_getElem?_self :
    ∀ {α : Type} {l : List α} {n : Nat} {a : α},
      l[n]? = some a → l.set n a = l := by
  intro α l
  induction l with
  | nil => intro n a h; simp at h
  | cons x rest ih =>
    intro n a h
    cases n with
    | zero =>
      rw [List.getElem?_cons_zero] at h
      rw [Option.some.inj h]
      rfl
    | succ m =>
      rw [List.getElem?_cons_succ] at h
      simp only [List.set_cons_succ]
      rw [ih h]

theorem mergeStep_matched {acc : List CartItem} {g : CartItem}
    {idx : Nat} {ex : CartItem}
    (hf : findItemByProductID acc g.productID = some (idx, ex)) :
    mergeStep acc g =
      acc.set idx { ex with quantity := max ex.quantity g.quantity } := by
  unfold mergeStep
  rw [hf]
  dsimp only
  by_cases hgt : g.quantity > ex.quantity
  · rw [if_pos hgt, max_eq_right (le_of_lt hgt)]
  · rw [if_neg hgt, max_eq_left (by omega)]
    have heta : ({ ex with quantity := ex.quantity } : CartItem) = ex := rfl
    rw [heta, set_of_getElem?_self (findItemByProductID_some_char hf).1]

theorem mergeStep_unmatched_room {acc : List CartItem} {g : CartItem}
    (hf : findItemByProductID acc g.productID = none)
    (hlt : (acc.length : Int) < maxItemsPerCart) :
    mergeStep acc g = acc ++ [g] := by
  unfold mergeStep
  rw [hf]
  dsimp only
  rw [if_pos hlt]

theorem mergeStep_unmatched_full {acc : List CartItem} {g : CartItem}
    (hf : findItemByProductID acc g.productID = none)
    (hge : ¬ (acc.length : Int) < maxItemsPerCart) :
    mergeStep acc g = acc := by
  unfold mergeStep
  rw [hf]
  dsimp only
  rw [if_neg hge]

/-- Distinct positions of a `Nodup` list hold distinct elements. -/
theorem nodup_getElem?_ne {α : Type} :
    ∀ {l : List α}, l.Nodup → ∀ {i j : Nat}, i ≠ j → ∀ {a b : α},
      l[i]? = some a → l[j]? = some b → a ≠ b := by
  intro l
  induction l with
  | nil => intro _ i j _ a b ha; simp at ha
  | cons c rest ih =>
    intro h i j hij a b ha hb
    obtain ⟨hc, hrest⟩ := List.nodup_cons.mp h
    cases i with
    | zero =>
      cases j with
      | zero => exact absurd rfl hij
      | succ m =>
        rw [List.getElem?_cons_zero] at ha
        rw [List.getElem?_cons_succ] at hb
        rw [← Option.some.inj ha]
        intro hab
        exact hc (hab ▸ List.getElem?_mem hb)
    | succ n =>
      cases j with
      | zero =>
        rw [List.getElem?_cons_succ] at ha
        rw [List.getElem?_cons_zero] at hb
        rw [← Option.some.inj hb]
        intro hab
        exact hc (hab ▸ List.getElem?_mem ha)
      | succ m =>
        rw [List.getElem?_cons_succ] at ha
        rw [List.getElem?_cons_succ] at hb
        exact ih hrest (fun hnm => hij (by rw [hnm])) ha hb

/-- Two different positions of a product-id-distinct list carry different
product ids. -/
theorem nodup_pids_ne {ui : List CartItem}
    (hu : (ui.map (fun it => it.productID)).Nodup)
    {i j : Nat} (hij : i ≠ j) {x y : CartItem}
    (hx : ui[i]? = some x) (hy : ui[j]? = some y) :
    x.productID ≠ y.productID := by
  have hmx : (ui.map (fun it => it.productID))[i]? = some x.productID := by
    rw [List.getElem?_map, hx]
    rfl
  have hmy : (ui.map (fun it => it.productID))[j]? = some y.productID := by
    rw [List.getElem?_map, hy]
    rfl
  exact nodup_getElem?_ne hu hij hmx hmy

/-- Setting a slot to an item with the same product id leaves the list of
product ids unchanged. -/
theorem pids_set_matched {ui : List CartItem} {idx : Nat} {ex : CartItem}
    (hg : ui[idx]? = some ex) (q : Int) :
    (ui.set idx { ex with quantity := q }).map (fun it => it.productID) =
      ui.map (fun it => it.productID) := by
  rw [List.map_set]
  apply set_of_getElem?_self
  rw [List.getElem?_map, hg]
  rfl

theorem any_pid_eq (ui : List CartItem) (p : String) :
    ui.any (fun it => it.productID == p) =
      (ui.map (fun it => it.productID)).any (fun s => s == p) := by
  induction ui with
  | nil => rfl
  | cons a rest ih => simp only [List.any_cons, List.map_cons, ih]

theorem guestLeftover_pids_congr {ui ui' : List CartItem}
    (h : ui.map (fun it => it.productID) = ui'.map (fun it => it.productID))
    (gl : List CartItem) : guestLeftover ui gl = guestLeftover ui' gl := by
  unfold guestLeftover
  apply List.filter_congr
  intro x _
  rw [any_pid_eq ui x.productID, any_pid_eq ui' x.productID, h]

/-- A product id outside the list makes the spec-side lookup miss. -/
theorem find?_pid_eq_none {gl : List CartItem} {p : String}
    (h : p ∉ gl.map (fun it => it.productID)) :
    gl.find? (fun x => x.productID == p) = none := by
  apply List.find?_eq_none.mpr
  intro x hx hbeq
  exact h (List.mem_map.mpr ⟨x, hx, (beq_iff_eq.mp hbeq)⟩)

theorem mergeQtySpec_of_none {gl : List CartItem} {a : CartItem}
    (h : gl.find? (fun x => x.productID == a.productID) = none) :
    mergeQtySpec gl a = a := by
  unfold mergeQtySpec
  rw [h]

theorem mergeQtySpec_cons_hit {g : CartItem} {gs : List CartItem}
    {a : CartItem} (h : g.productID = a.productID) :
    mergeQtySpec (g :: gs) a = { a with quantity := max a.quantity g.quantity } := by
  unfold mergeQtySpec
  rw [List.find?_cons_of_pos _ (by simpa using h)]

theorem mergeQtySpec_cons_miss {g : CartItem} {gs : List CartItem}
    {a : CartItem} (h : g.productID ≠ a.productID) :
    mergeQtySpec (g :: gs) a = mergeQtySpec gs a := by
  unfold mergeQtySpec
  rw [List.find?_cons_of_neg _ (by simpa using h)]

theorem map_mergeQtySpec_skip {ui : List CartItem} {g : CartItem}
    {gs : List CartItem} (h : ∀ x ∈ ui, x.productID ≠ g.productID) :
    ui.map (mergeQtySpec (g :: gs)) = ui.map (mergeQtySpec gs) := by
  apply List.map_congr_left
  intro a ha
  exact mergeQtySpec_cons_miss (fun he => h a ha he.symm)

theorem any_pid_false {ui : List CartItem} {p : String}
    (h : ∀ x ∈ ui, x.productID ≠ p) :
    ui.any (fun it => it.productID == p) = false := by
  rw [List.any_eq_false]
  intro x hx
  simpa using h x hx

theorem any_pid_true {ui : List CartItem} {p : String} {x : CartItem}
    (hx : x ∈ ui) (h : x.productID = p) :
    ui.any (fun it => it.productID == p) = true :=
  List.any_eq_true.mpr ⟨x, hx, by simpa using h⟩

theorem guestLeftover_cons_matched {ui gl : List CartItem} {g : CartItem}
    (h : ui.any (fun it => it.productID == g.productID) = true) :
    guestLeftover ui (g :: gl) = guestLeftover ui gl := by
  unfold guestLeftover
  rw [List.filter_cons_of_neg (by simp [h])]

theorem guestLeftover_cons_unmatched {ui gl : List CartItem} {g : CartItem}
    (h : ui.any (fun it => it.productID == g.productID) = false) :
    guestLeftover ui (g :: gl) = g :: guestLeftover ui gl := by
  unfold guestLeftover
  rw [List.filter_cons_of_pos (by simp [h])]

theorem guestLeftover_append_user {ui : List CartItem} {g : CartItem}
    {gs : List CartItem} (h : ∀ x ∈ gs, x.productID ≠ g.productID) :
    guestLeftover (ui ++ [g]) gs = guestLeftover ui gs := by
  unfold guestLeftover
  apply List.filter_congr
  intro x hx
  simp only [List.any_append, List.any_cons, List.any_nil]
  have hgx : (g.productID == x.productID) = false := by
    simp only [beq_eq_false_iff_ne]
    exact fun he => h x hx he.symm
  rw [hgx]
  simp

/-- The source fold of `MergeCarts` computes the spec-side description,
for carts whose product ids are internally distinct. -/
theorem mergeItems_eq_spec :
    ∀ (gl ui : List CartItem),
      (ui.map (fun it => it.productID)).Nodup →
      (gl.map (fun it => it.productID)).Nodup →
      mergeItems ui gl = mergeSpecItems ui gl := by
  intro gl
  induction gl with
  | nil =>
    intro ui hu _
    unfold mergeItems mergeSpecItems guestLeftover
    simp only [List.foldl_nil, List.filter_nil, List.take_nil, List.append_nil]
    have hid : ui.map (mergeQtySpec []) = ui.map id :=
      List.map_congr_left (fun a _ => rfl)
    rw [hid, List.map_id]
  | cons g gs ih =>
    intro ui hu hg
    have hcons : (∀ x ∈ gs, ¬ x.productID = g.productID) ∧
        (gs.map (fun it => it.productID)).Nodup := by simpa using hg
    obtain ⟨hgnot', hgs⟩ := hcons
    have hgnot : g.productID ∉ gs.map (fun it => it.productID) := by
      intro hm
      obtain ⟨x, hx, hxe⟩ := List.mem_map.mp hm
      exact hgnot' x hx hxe
    have hstep : mergeItems ui (g :: gs) = mergeItems (mergeStep ui g) gs := rfl
    cases hf : findItemByProductID ui g.productID with
    | some p =>
      obtain ⟨idx, ex⟩ := p
      obtain ⟨hgx, hpid⟩ := findItemByProductID_some_char hf
      have hset := mergeStep_matched hf
      have hpids := pids_set_matched hgx (max ex.quantity g.quantity)
      have hnod' : ((ui.set idx
          { ex with quantity := max ex.quantity g.quantity }).map
            (fun it => it.productID)).Nodup := by
        rw [hpids]; exact hu
      rw [hstep, hset, ih _ hnod' hgs]
      unfold mergeSpecItems
      have hmap : (ui.set idx
          { ex with quantity := max ex.quantity g.quantity }).map
            (mergeQtySpec gs) = ui.map (mergeQtySpec (g :: gs)) := by
        apply List.ext_getElem?
        intro n
        rw [List.getElem?_map, List.getElem?_map]
        by_cases hn : idx = n
        · subst hn
          have hidx : idx < ui.length := getElem?_some_lt hgx
          rw [List.getElem?_set_self (by simpa using hidx), hgx]
          simp only [Option.map_some']
          congr 1
          have h1 : mergeQtySpec gs
              { ex with quantity := max ex.quantity g.quantity } =
              { ex with quantity := max ex.quantity g.quantity } := by
            apply mergeQtySpec_of_none
            apply find?_pid_eq_none
            show ex.productID ∉ gs.map (fun it => it.productID)
            rw [hpid]
            exact hgnot
          have h2 : mergeQtySpec (g :: gs) ex =
              { ex with quantity := max ex.quantity g.quantity } :=
            mergeQtySpec_cons_hit hpid.symm
          rw [h1, h2]
        · rw [List.getElem?_set_ne hn]
          cases hxn : ui[n]? with
          | none => rfl
          | some x =>
            simp only [Option.map_some']
            congr 1
            have hxpid : x.productID ≠ ex.productID :=
              nodup_pids_ne hu (fun he => hn he.symm) hxn hgx
            rw [hpid] at hxpid
            rw [mergeQtySpec_cons_miss (fun he => hxpid he.symm)]
      have hleft := guestLeftover_pids_congr hpids gs
      have hleft2 : guestLeftover ui (g :: gs) = guestLeftover ui gs :=
        guestLeftover_cons_matched (any_pid_true (List.getElem?_mem hgx) hpid)
      rw [hmap, hleft, hleft2, List.length_set]
    | none =>
      have hall := findItemByProductID_none_char.mp hf
      have hmapskip : ui.map (mergeQtySpec (g :: gs)) =
          ui.map (mergeQtySpec gs) := map_mergeQtySpec_skip hall
      have hggs : ∀ x ∈ gs, x.productID ≠ g.productID := by
        intro x hx he
        exact hgnot (List.mem_map.mpr ⟨x, hx, he⟩)
      by_cases hlt : (ui.length : Int) < maxItemsPerCart
      · have hstep2 := mergeStep_unmatched_room hf hlt
        have hnotmem : g.productID ∉ ui.map (fun it => it.productID) := by
          intro hm
          obtain ⟨x, hx, hxe⟩ := List.mem_map.mp hm
          exact hall x hx hxe
        have hnod' : ((ui ++ [g]).map (fun it => it.productID)).Nodup := by
          rw [List.map_append, List.nodup_append]
          refine ⟨hu, List.nodup_singleton _, ?_⟩
          intro a ha hb
          have hab : a = g.productID := by simpa using hb
          exact hnotmem (hab ▸ ha)
        rw [hstep, hstep2, ih _ hnod' hgs]
        unfold mergeSpecItems
        have hmap2 : (ui ++ [g]).map (mergeQtySpec gs) =
            ui.map (mergeQtySpec gs) ++ [g] := by
          rw [List.map_append]
          congr 1
          simp only [List.map_cons, List.map_nil]
          rw [mergeQtySpec_of_none (find?_pid_eq_none hgnot)]
        have hleftap : guestLeftover (ui ++ [g]) gs = guestLeftover ui gs :=
          guestLeftover_append_user hggs
        have hleftg : guestLeftover ui (g :: gs) = g :: guestLeftover ui gs :=
          guestLeftover_cons_unmatched (any_pid_false hall)
        rw [hmap2, hleftap, hmapskip, hleftg, List.length_append]
        simp only [List.length_cons, List.length_nil]
        have h100 : 100 - ui.length = (100 - (ui.length + 1)) + 1 := by
          unfold maxItemsPerCart at hlt
          omega
        rw [h100, List.take_succ_cons, List.append_assoc]
        rfl
      · have hstep2 := mergeStep_unmatched_full hf hlt
        rw [hstep, hstep2, ih _ hu hgs]
        unfold mergeSpecItems
        rw [hmapskip]
        have h0 : 100 - ui.length = 0 := by
          unfold maxItemsPerCart at hlt
          omega
        rw [h0]
        simp [List.take_zero]

/-- C6: `MergeCarts` returns the other cart when one is nil (bumping
`updated_at` only for a nil user cart); with both non-nil and internally
distinct product ids (the domain invariant), each user item matching a
guest product gets quantity `max(user, guest)` — not the sum — and the
non-matching guest items are appended in order only while the cart stays
below 100 items, the overflow silently dropped, as `mergeSpecItems`
states. -/
theorem C6_mergeCarts_spec (now : Nat) :
    (mergeCarts none none now = none) ∧
    (∀ g : Cart, mergeCarts none (some g) now =
      some { g with updatedAt := now }) ∧
    (∀ u : Cart, mergeCarts (some u) none now = some u) ∧
    (∀ u g : Cart,
      (u.items.map (fun it => it.productID)).Nodup →
      (g.items.map (fun it => it.productID)).Nodup →
      mergeCarts (some u) (some g) now =
        some { u with items := mergeSpecItems u.items g.items,
                      updatedAt := now }) := by
  refine ⟨rfl, fun g => rfl, fun u => rfl, ?_⟩
  intro u g hu hg
  have hm : mergeCarts (some u) (some g) now =
      some { u with items := mergeItems u.items g.items, updatedAt := now } := rfl
  rw [hm, mergeItems_eq_spec g.items u.items hu hg]

/-- Witness for C6 (the spec's §8 guest-merge scenario): user `p1` qty 2
price 500 and `p2` qty 1, guest `p1` qty 5 price 999 — result keeps two
lines, `p1` at qty 5 with the user's price 500. -/
theorem C6_mergeCarts_spec_witness :
    mergeCarts
        (some ⟨"cu", "u1", [⟨"i1", "p1", 2, 500, 0⟩, ⟨"i2", "p2", 1, 300, 0⟩],
          1, 0, 0, 100⟩)
        (some ⟨"cg", "g1", [⟨"g9", "p1", 5, 999, 3⟩], 1, 0, 0, 100⟩) 9 =
      some ⟨"cu", "u1", [⟨"i1", "p1", 5, 500, 0⟩, ⟨"i2", "p2", 1, 300, 0⟩],
        1, 0, 9, 100⟩ := by
  have h := (C6_mergeCarts_spec 9).2.2.2
    ⟨"cu", "u1", [⟨"i1", "p1", 2, 500, 0⟩, ⟨"i2", "p2", 1, 300, 0⟩],
      1, 0, 0, 100⟩
    ⟨"cg", "g1", [⟨"g9", "p1", 5, 999, 3⟩], 1, 0, 0, 100⟩
    (by decide) (by decide)
  rw [h]
  rfl

end Ecommerce
